import Mathlib

/-!
Shallow embedding of the tank-battle game simulation core (`ftg.py`).

Positions are pygame `Vector2` values; the spec's testable properties are stated
"with exact arithmetic", so coordinates are modelled as real numbers.  Python's
`int()` truncation (toward zero) is modelled by `trunc`.  Object identity of
units and bullets is modelled by their index in the owning list.  Observer
callbacks (`GameStateObserver.unitDestroyed`) have no simulation-visible effect
in the source, so they are modelled by an event trace: `destroyedLog` records
one entry per `notifyUnitDestroyed` broadcast and `observerCalls` records one
entry per individual `observer.unitDestroyed(unit)` call.
-/

namespace FTG

/-- Two-dimensional vector with real coordinates (pygame `Vector2`). -/
structure Vec2 where
  x : ℝ
  y : ℝ

instance : Add Vec2 := ⟨fun a b => ⟨a.x + b.x, a.y + b.y⟩⟩

instance : Sub Vec2 := ⟨fun a b => ⟨a.x - b.x, a.y - b.y⟩⟩

instance : SMul ℝ Vec2 := ⟨fun c v => ⟨c * v.x, c * v.y⟩⟩

noncomputable instance : DecidableEq Vec2 := fun a b =>
  decidable_of_iff (a.x = b.x ∧ a.y = b.y) (by cases a; cases b; simp)

theorem Vec2.add_def (a b : Vec2) : a + b = ⟨a.x + b.x, a.y + b.y⟩ := rfl

theorem Vec2.sub_def (a b : Vec2) : a - b = ⟨a.x - b.x, a.y - b.y⟩ := rfl

theorem Vec2.smul_def (c : ℝ) (v : Vec2) : c • v = ⟨c * v.x, c * v.y⟩ := rfl

/-- Euclidean length of a vector (pygame `Vector2.length`). -/
noncomputable def Vec2.len (v : Vec2) : ℝ := Real.sqrt (v.x ^ 2 + v.y ^ 2)

/-- Distance between two points (pygame `Vector2.distance_to`). -/
noncomputable def Vec2.dist (a b : Vec2) : ℝ := Vec2.len (a - b)

/-- Normalisation (pygame `Vector2.normalize`): `none` models the `ValueError`
pygame raises on a zero-length vector; under exact arithmetic the length is
zero exactly for the zero vector. -/
noncomputable def Vec2.normalize? (v : Vec2) : Option Vec2 :=
  if v.x = 0 ∧ v.y = 0 then none else some ⟨v.x / v.len, v.y / v.len⟩

/-- Python `int()` applied to a real value: truncation toward zero. -/
noncomputable def trunc (r : ℝ) : ℤ := if 0 ≤ r then ⌊r⌋ else ⌈r⌉

/-- Grid cell of a position: the pair `(int(p.x), int(p.y))`. -/
noncomputable def Vec2.cell (v : Vec2) : ℤ × ℤ := (trunc v.x, trunc v.y)

/-- Status of a game item: the dynamic `status` string field, which only ever
holds `"alive"` or `"destroyed"`. -/
inductive Status where
  | alive
  | destroyed
deriving DecidableEq

/-- Unit entity (class `Unit`, with the `GameItem` base fields inlined). -/
structure Unit where
  position : Vec2
  status : Status
  tile : Vec2
  orientation : ℤ
  weaponTarget : Vec2
  lastBulletEpoch : ℤ

/-- Bullet entity (class `Bullet`, with the `GameItem` base fields inlined).
`unitIdx` models the `unit` back-reference as the firing unit's index in
`GameState.units`. -/
structure Bullet where
  position : Vec2
  status : Status
  tile : Vec2
  orientation : ℤ
  unitIdx : ℕ
  startPosition : Vec2
  endPosition : Vec2

/-- Fresh bullet constructed by `Bullet.__init__(state, unit)` for the unit at
index `uIdx`. -/
def Bullet.mkFrom (uIdx : ℕ) (u : Unit) : Bullet :=
  { position := u.position
    status := .alive
    tile := ⟨2, 1⟩
    orientation := 0
    unitIdx := uIdx
    startPosition := u.position
    endPosition := u.weaponTarget }

/-- The mutable simulation root (class `GameState`).  Observers are modelled by
identifiers; `destroyedLog`/`observerCalls` are the notification trace. -/
structure GameState where
  epoch : ℤ
  worldSize : Vec2
  ground : List (List (Option Vec2))
  walls : List (List (Option Vec2))
  units : List Unit
  bullets : List Bullet
  bulletSpeed : ℝ
  bulletRange : ℝ
  bulletDelay : ℤ
  observers : List ℕ
  destroyedLog : List ℕ
  observerCalls : List (ℕ × ℕ)

/-- The state built by `GameState.__init__` followed by `PlayGameMode.__init__`
registering its five layers as observers. -/
noncomputable def GameState.init : GameState :=
  { epoch := 0
    worldSize := ⟨16, 10⟩
    ground := List.replicate 10 (List.replicate 16 (some ⟨5, 1⟩))
    walls := List.replicate 10 (List.replicate 16 none)
    units := [{ position := ⟨8, 9⟩, status := .alive, tile := ⟨1, 0⟩,
                orientation := 0, weaponTarget := ⟨0, 0⟩, lastBulletEpoch := -100 }]
    bullets := []
    bulletSpeed := 0.1
    bulletRange := 4
    bulletDelay := 5
    observers := [0, 1, 2, 3, 4]
    destroyedLog := []
    observerCalls := [] }

/-- Property `worldWidth`: `int(self.worldSize.x)`. -/
noncomputable def GameState.worldWidth (s : GameState) : ℤ := trunc s.worldSize.x

/-- Property `worldHeight`: `int(self.worldSize.y)`. -/
noncomputable def GameState.worldHeight (s : GameState) : ℤ := trunc s.worldSize.y

/-- Query `GameState.isInside`. -/
def GameState.isInside (s : GameState) (position : Vec2) : Prop :=
  0 ≤ position.x ∧ position.x < (s.worldWidth : ℝ)
    ∧ 0 ≤ position.y ∧ position.y < (s.worldHeight : ℝ)

noncomputable instance (s : GameState) (p : Vec2) : Decidable (s.isInside p) := by
  unfold GameState.isInside; infer_instance

/-- Loop of `GameState.findUnit`, carrying the index of the current element. -/
noncomputable def findUnitAux (p : Vec2) : List Unit → ℕ → Option ℕ
  | [], _ => none
  | u :: rest, i => if u.position.cell = p.cell then some i else findUnitAux p rest (i + 1)

/-- Query `GameState.findUnit`: index of the first unit whose truncated position
equals the truncated `position`, else `none`. -/
noncomputable def GameState.findUnit (s : GameState) (position : Vec2) : Option ℕ :=
  findUnitAux position s.units 0

/-- Status of the unit stored at index `i`, if any. -/
def GameState.unitStatus (s : GameState) (i : ℕ) : Option Status :=
  (s.units.get? i).map Unit.status

/-- Query `GameState.findLiveUnit`: the result of `findUnit`, but `none` unless
that unit's status is alive. -/
noncomputable def GameState.findLiveUnit (s : GameState) (position : Vec2) : Option ℕ :=
  match s.findUnit position with
  | none => none
  | some i => if s.unitStatus i = some .alive then some i else none

/-- Method `GameState.notifyUnitDestroyed`: one broadcast, delivered to every
registered observer in registration order. -/
def GameState.notifyUnitDestroyed (s : GameState) (uIdx : ℕ) : GameState :=
  { s with
    destroyedLog := s.destroyedLog ++ [uIdx]
    observerCalls := s.observerCalls ++ s.observers.map (fun o => (o, uIdx)) }

/-- Replace the unit at index `i` (mutation of a unit object held in
`GameState.units`). -/
def GameState.setUnit (s : GameState) (i : ℕ) (u : Unit) : GameState :=
  { s with units := s.units.set i u }

/-- Replace the bullet at index `i`. -/
def GameState.setBullet (s : GameState) (i : ℕ) (b : Bullet) : GameState :=
  { s with bullets := s.bullets.set i b }

/-- Mutation `unit.status = "destroyed"` for the unit at index `i`. -/
def GameState.destroyUnit (s : GameState) (i : ℕ) : GameState :=
  match s.units.get? i with
  | none => s
  | some u => s.setUnit i { u with status := .destroyed }

/-- Wall lookup `self.state.walls[int(p.y)][int(p.x)]` (the source only indexes
inside the world, where the indices are the truncated coordinates). -/
noncomputable def GameState.wallAt (s : GameState) (p : Vec2) : Option Vec2 :=
  (s.walls.getD (trunc p.y).toNat []).getD (trunc p.x).toNat none

/-- Orientation update of `MoveCommand.run`: horizontal branch first, vertical
branch second (so the vertical assignment overrides). -/
noncomputable def orientAfter (moveVector : Vec2) (o : ℤ) : ℤ :=
  let o1 := if moveVector.x < 0 then 90 else if 0 < moveVector.x then -90 else o
  if moveVector.y < 0 then 0 else if 0 < moveVector.y then 180 else o1

/-- Command `MoveCommand.run` for the unit at index `uIdx`. -/
noncomputable def MoveCommand.run (s : GameState) (uIdx : ℕ) (moveVector : Vec2) : GameState :=
  match s.units.get? uIdx with
  | none => s
  | some u =>
    if u.status = .alive then
      let s1 := s.setUnit uIdx { u with orientation := orientAfter moveVector u.orientation }
      let newPos := u.position + moveVector
      -- `isInside` and `wallAt` read only `worldSize` and `walls`, which the
      -- orientation write leaves untouched, so they are read off `s`;
      -- `findUnit` is called on the state after the orientation write.
      if s.isInside newPos then
        if s.wallAt newPos = none then
          if s1.findUnit newPos = none then
            s1.setUnit uIdx { u with orientation := orientAfter moveVector u.orientation,
                                     position := newPos }
          else s1
        else s1
      else s1
    else s

/-- Command `TargetCommand.run` for the unit at index `uIdx`. -/
def TargetCommand.run (s : GameState) (uIdx : ℕ) (target : Vec2) : GameState :=
  match s.units.get? uIdx with
  | none => s
  | some u => s.setUnit uIdx { u with weaponTarget := target }

/-- Command `ShootCommand.run` for the unit at index `uIdx`. -/
def ShootCommand.run (s : GameState) (uIdx : ℕ) : GameState :=
  match s.units.get? uIdx with
  | none => s
  | some u =>
    if u.status = .alive then
      if s.epoch - u.lastBulletEpoch < s.bulletDelay then s
      else
        { s with
          units := s.units.set uIdx { u with lastBulletEpoch := s.epoch }
          bullets := s.bullets ++ [Bullet.mkFrom uIdx u] }
    else s

/-- Arrival test of `MoveBulletCommand.run`: the advanced position has crossed
or reached the end position along the direction's sign on both axes. -/
def arrived (direction newPos endPos : Vec2) : Prop :=
  ((0 ≤ direction.x ∧ endPos.x ≤ newPos.x) ∨ (direction.x < 0 ∧ newPos.x ≤ endPos.x))
    ∧ ((0 ≤ direction.y ∧ endPos.y ≤ newPos.y) ∨ (direction.y < 0 ∧ newPos.y ≤ endPos.y))

noncomputable instance (d p e : Vec2) : Decidable (arrived d p e) := by
  unfold arrived; infer_instance

/-- Command `MoveBulletCommand.run` for the bullet at index `bIdx`; `none`
models the uncaught `ValueError` raised by normalising a zero direction. -/
noncomputable def MoveBulletCommand.run (s : GameState) (bIdx : ℕ) : Option GameState :=
  match s.bullets.get? bIdx with
  | none => some s
  | some b =>
    match Vec2.normalize? (b.endPosition - b.startPosition) with
    | none => none
    | some direction =>
      let newPos := b.position + s.bulletSpeed • direction
      let newCenterPos := newPos + (⟨0.5, 0.5⟩ : Vec2)
      if ¬ s.isInside newPos then
        some (s.setBullet bIdx { b with status := .destroyed })
      else if arrived direction newPos b.endPosition then
        some (s.setBullet bIdx { b with status := .destroyed })
      else if s.bulletRange ≤ Vec2.dist newPos b.startPosition then
        some (s.setBullet bIdx { b with status := .destroyed })
      else
        match s.findLiveUnit newCenterPos with
        | some uIdx =>
          if uIdx ≠ b.unitIdx then
            some (((s.setBullet bIdx { b with status := .destroyed }).destroyUnit
              uIdx).notifyUnitDestroyed uIdx)
          else some (s.setBullet bIdx { b with position := newPos })
        | none => some (s.setBullet bIdx { b with position := newPos })

/-- Command `DeleteDestroyedCommand.run` on a list with the given status field:
keep only the alive items. -/
def deleteDestroyedList {α : Type} (statusOf : α → Status) (l : List α) : List α :=
  l.filter (fun a => statusOf a = .alive)

/-- Which `GameState` list a `DeleteDestroyedCommand` holds a reference to. -/
inductive ListSel where
  | units
  | bullets
deriving DecidableEq

/-- The command objects the game constructs, with object references replaced by
indices into the owning `GameState` lists. -/
inductive Cmd where
  | move (uIdx : ℕ) (moveVector : Vec2)
  | target (uIdx : ℕ) (t : Vec2)
  | shoot (uIdx : ℕ)
  | moveBullet (bIdx : ℕ)
  | deleteDestroyed (sel : ListSel)

/-- Execute one command; `none` models an uncaught exception. -/
noncomputable def execCmd (c : Cmd) (s : GameState) : Option GameState :=
  match c with
  | .move u mv => some (MoveCommand.run s u mv)
  | .target u t => some (TargetCommand.run s u t)
  | .shoot u => some (ShootCommand.run s u)
  | .moveBullet b => MoveBulletCommand.run s b
  | .deleteDestroyed .units =>
      some { s with units := deleteDestroyedList Unit.status s.units }
  | .deleteDestroyed .bullets =>
      some { s with bullets := deleteDestroyedList Bullet.status s.bullets }

/-- Execute a queue of commands in order (`PlayGameMode.update`); an exception
aborts the rest of the queue. -/
noncomputable def execAll : List Cmd → GameState → Option GameState
  | [], s => some s
  | c :: cs, s =>
    match execCmd c s with
    | none => none
    | some s' => execAll cs s'

/-!
Level loading (`LoadLevelCommand`).  The `tmx` file is modelled as already
parsed data (file existence and XML parsing are I/O, outside the simulation
model).  A raised `RuntimeError` is modelled by returning the error message
alongside the state as mutated so far, since the exception propagates out of
`run` leaving the shared `GameState` with every mutation already applied.
Tileset object identity (`tanksTileset != towersTileset`) is modelled by the
index of the tileset in `tileMap.tilesets`.
-/

/-- Image resource of a tileset; `dataIsSome` models `tileset.image.data is not
None` (an embedded image). -/
structure TmxImage where
  dataIsSome : Bool
  source : String
deriving Inhabited

/-- Parsed `tmx` tileset attributes used by the loader. -/
structure TmxTileset where
  firstgid : ℤ
  tilecount : ℤ
  columns : ℤ
  tilewidth : ℤ
  tileheight : ℤ
  image : TmxImage
deriving Inhabited

/-- Parsed `tmx` tile: its global tile id. -/
structure TmxTile where
  gid : ℤ
deriving Inhabited

/-- Parsed `tmx` layer; `isLayerType` models `isinstance(layer, tmx.Layer)`. -/
structure TmxLayer where
  isLayerType : Bool
  tiles : List TmxTile
deriving Inhabited

/-- Parsed `tmx` tile map. -/
structure TmxTileMap where
  orientation : String
  width : ℕ
  height : ℕ
  layers : List TmxLayer
  tilesets : List TmxTileset
deriving Inhabited

/-- Loop guessing the tileset that owns a gid: first tileset `t` with
`t.firstgid <= gid < t.firstgid + t.tilecount`, by index. -/
def findTilesetIdxAux (gid : ℤ) : List TmxTileset → ℕ → Option ℕ
  | [], _ => none
  | t :: rest, i =>
    if t.firstgid ≤ gid ∧ gid < t.firstgid + t.tilecount then some i
    else findTilesetIdxAux gid rest (i + 1)

/-- Method `LoadLevelCommand.decodeLayer`: validates the layer and returns the
index of its tileset. -/
def LoadLevelCommand.decodeLayer (fileName : String) (tileMap : TmxTileMap)
    (layer : TmxLayer) : Except String ℕ :=
  if ¬ layer.isLayerType then
    .error ("Error in " ++ fileName ++ ": invalid layer type")
  else if layer.tiles.length ≠ tileMap.width * tileMap.height then
    .error ("Error in " ++ fileName ++ ": invalid tiles count")
  else
    let guessed : Except String ℕ :=
      match layer.tiles.find? (fun t => t.gid != 0) with
      | none =>
        if tileMap.tilesets.length = 0 then
          .error ("Error in " ++ fileName ++ ": no tilesets")
        else .ok 0
      | some t =>
        match findTilesetIdxAux t.gid tileMap.tilesets 0 with
        | none => .error ("Error in " ++ fileName ++ ": no corresponding tileset")
        | some i => .ok i
    match guessed with
    | .error e => .error e
    | .ok i =>
      let ts := tileMap.tilesets.getD i default
      if ts.columns ≤ 0 then
        .error ("Error in " ++ fileName ++ ": invalid columns count")
      else if ts.image.dataIsSome then
        .error ("Error in " ++ fileName ++ ": embedded tileset image is not supported")
      else .ok i

/-- Body of the `decodeArrayLayer` loop for one cell: `None` for gid 0, else
the tile reference `Vector2(lid % columns, lid // columns)` after the tile-id
bound check.  Python `%`/`//` on these nonnegative operands agree with
`Int.emod`/`Int.ediv`. -/
def decodeTileCell (fileName : String) (ts : TmxTileset) (tile : TmxTile) :
    Except String (Option Vec2) :=
  if tile.gid = 0 then .ok none
  else
    let lid := tile.gid - ts.firstgid
    if lid < 0 ∨ ts.tilecount ≤ lid then
      .error ("Error in " ++ fileName ++ ": invalid tile id")
    else .ok (some ⟨(lid.emod ts.columns : ℤ), (lid.ediv ts.columns : ℤ)⟩)

/-- Method `LoadLevelCommand.decodeArrayLayer`: tileset index and the decoded
2D array. -/
def LoadLevelCommand.decodeArrayLayer (fileName : String) (tileMap : TmxTileMap)
    (layer : TmxLayer) : Except String (ℕ × List (List (Option Vec2))) := do
  let ti ← LoadLevelCommand.decodeLayer fileName tileMap layer
  let ts := tileMap.tilesets.getD ti default
  let rows ← (List.range tileMap.height).mapM (fun y =>
    (List.range tileMap.width).mapM (fun x =>
      decodeTileCell fileName ts (layer.tiles.getD (x + y * tileMap.width) default)))
  pure (ti, rows)

/-- Body of the `decodeUnitsLayer` loop for one cell: a fresh `Unit` at grid
position `(x, y)` when the gid is nonzero. -/
def decodeUnitCell (fileName : String) (ts : TmxTileset) (x y : ℕ) (tile : TmxTile) :
    Except String (Option Unit) :=
  if tile.gid = 0 then .ok none
  else
    let lid := tile.gid - ts.firstgid
    if lid < 0 ∨ ts.tilecount ≤ lid then
      .error ("Error in " ++ fileName ++ ": invalid tile id")
    else .ok (some
      { position := ⟨x, y⟩
        status := .alive
        tile := ⟨(lid.emod ts.columns : ℤ), (lid.ediv ts.columns : ℤ)⟩
        orientation := 0
        weaponTarget := ⟨0, 0⟩
        lastBulletEpoch := -100 })

/-- Method `LoadLevelCommand.decodeUnitsLayer`: tileset index and the decoded
unit list in row-major creation order. -/
def LoadLevelCommand.decodeUnitsLayer (fileName : String) (tileMap : TmxTileMap)
    (layer : TmxLayer) : Except String (ℕ × List Unit) := do
  let ti ← LoadLevelCommand.decodeLayer fileName tileMap layer
  let ts := tileMap.tilesets.getD ti default
  let rows ← (List.range tileMap.height).mapM (fun y =>
    (List.range tileMap.width).mapM (fun x =>
      decodeUnitCell fileName ts x y (layer.tiles.getD (x + y * tileMap.width) default)))
  pure (ti, rows.flatten.filterMap id)

/-- Method `LoadLevelCommand.run` on an already-parsed tile map.  Returns the
state (with every mutation applied up to the point of any failure, since the
source mutates the shared `GameState` in place and exceptions propagate) and
`some errorMessage` when a `RuntimeError`/`IndexError` is raised.  The
presentation-side effects (`setTileset`, window resize, `gameOver` flag) are
outside the `GameState` model. -/
def LoadLevelCommand.run (fileName : String) (tileMap : TmxTileMap) (s0 : GameState) :
    GameState × Option String :=
  if tileMap.orientation ≠ "orthogonal" then
    (s0, some ("Error in " ++ fileName ++ ": invalid orientation"))
  else if tileMap.layers.length ≠ 5 then
    (s0, some ("Error in " ++ fileName ++ ": 5 layers are expected"))
  else
    let s1 := { s0 with worldSize := (⟨tileMap.width, tileMap.height⟩ : Vec2) }
    match LoadLevelCommand.decodeArrayLayer fileName tileMap (tileMap.layers.getD 0 default) with
    | .error e => (s1, some e)
    | .ok (ti0, arr0) =>
      let ts0 := tileMap.tilesets.getD ti0 default
      let s2 := { s1 with ground := arr0 }
      match LoadLevelCommand.decodeArrayLayer fileName tileMap (tileMap.layers.getD 1 default) with
      | .error e => (s2, some e)
      | .ok (ti1, arr1) =>
        let ts1 := tileMap.tilesets.getD ti1 default
        if ts1.tilewidth ≠ ts0.tilewidth ∨ ts1.tileheight ≠ ts0.tileheight then
          (s2, some ("Error in " ++ fileName ++ ": tile sizes must be the same in all layers"))
        else
          let s3 := { s2 with walls := arr1 }
          match LoadLevelCommand.decodeUnitsLayer fileName tileMap (tileMap.layers.getD 2 default) with
          | .error e => (s3, some e)
          | .ok (ti2, tanks) =>
            match LoadLevelCommand.decodeUnitsLayer fileName tileMap (tileMap.layers.getD 3 default) with
            | .error e => (s3, some e)
            | .ok (ti3, towers) =>
              if ti2 ≠ ti3 then
                (s3, some ("Error in " ++ fileName ++ ": tanks and towers tilesets must be the same"))
              else
                let ts2 := tileMap.tilesets.getD ti2 default
                if ts2.tilewidth ≠ ts0.tilewidth ∨ ts2.tileheight ≠ ts0.tileheight then
                  (s3, some ("Error in " ++ fileName ++ ": tile sizes must be the same in all layers"))
                else
                  let s4 := { s3 with units := tanks ++ towers }
                  if tanks.isEmpty then
                    (s4, some "IndexError: list index out of range")
                  else
                    match LoadLevelCommand.decodeArrayLayer fileName tileMap (tileMap.layers.getD 4 default) with
                    | .error e => (s4, some e)
                    | .ok (ti4, _) =>
                      let ts4 := tileMap.tilesets.getD ti4 default
                      if ts4.tilewidth ≠ ts2.tilewidth ∨ ts4.tileheight ≠ ts2.tileheight then
                        (s4, some ("Error in " ++ fileName ++ ": tile sizes must be the same in all layers"))
                      else
                        ({ s4 with bullets := [] }, none)

/-- Method `UserInterface.loadLevel`: creates a fresh play mode when none
exists, runs the load command inside `PlayGameMode.update` (which also
advances the epoch on success), and on any exception discards the play mode
(`playGameMode = None`) and shows the failure message. -/
noncomputable def UserInterface.loadLevel (playGameMode : Option GameState)
    (fileName : String) (tileMap : TmxTileMap) : Option GameState × Option String :=
  let g0 := playGameMode.getD GameState.init
  match LoadLevelCommand.run fileName tileMap g0 with
  | (g1, none) => (some { g1 with epoch := g1.epoch + 1 }, none)
  | (_, some e) => (none, some e)

/-!
The per-tick command queue built by `PlayGameMode.processInput`.
-/

/-- Input sampled by `processInput` in one tick: the keyboard move vector, the
mouse position in pixels, the fire trigger, and the rendering cell size used
to map the pointer to grid space. -/
structure TickInput where
  moveVector : Vec2
  mouseClicked : Bool
  mouseX : ℝ
  mouseY : ℝ
  cellWidth : ℤ
  cellHeight : ℤ

/-- Commands generated for the non-player units: each targets the player's
current position and, when within bullet range of the player, also shoots. -/
noncomputable def aiCommands (playerIdx : ℕ) (s : GameState) : List Cmd :=
  let playerPos := ((s.units.get? playerIdx).map Unit.position).getD ⟨0, 0⟩
  s.units.enum.flatMap (fun p =>
    if p.1 = playerIdx then []
    else
      Cmd.target p.1 playerPos ::
        (if Vec2.dist p.2.position playerPos ≤ s.bulletRange then [Cmd.shoot p.1] else []))

/-- The gameplay command queue built by `PlayGameMode.processInput` for one
tick (quit/menu handling is outside the simulation core). -/
noncomputable def buildTickCommands (gameOver : Bool) (playerIdx : ℕ) (inp : TickInput)
    (s : GameState) : List Cmd :=
  if gameOver then []
  else
    (if inp.moveVector.x ≠ 0 ∨ inp.moveVector.y ≠ 0 then [Cmd.move playerIdx inp.moveVector] else [])
      ++ [Cmd.target playerIdx
            ⟨inp.mouseX / (inp.cellWidth : ℝ) - 0.5, inp.mouseY / (inp.cellHeight : ℝ) - 0.5⟩]
      ++ (if inp.mouseClicked then [Cmd.shoot playerIdx] else [])
      ++ aiCommands playerIdx s
      ++ (List.range s.bullets.length).map Cmd.moveBullet
      ++ [Cmd.deleteDestroyed .bullets]

/-!
Spec-side predicates and concrete fixtures used by the verification theorems.
-/

/-- Loop for `specFirstLiveUnitAt`, carrying the current index. -/
noncomputable def specFirstLiveUnitAtAux (p : Vec2) : List Unit → ℕ → Option ℕ
  | [], _ => none
  | u :: rest, i =>
    if u.position.cell = p.cell ∧ u.status = .alive then some i
    else specFirstLiveUnitAtAux p rest (i + 1)

/-- Spec-side definition, following the spec's words rather than the source:
the first unit in list order whose truncated position matches `p` *and* whose
status is alive.  To be compared with `GameState.findLiveUnit`. -/
noncomputable def specFirstLiveUnitAt (s : GameState) (p : Vec2) : Option ℕ :=
  specFirstLiveUnitAtAux p s.units 0

/-- Hit condition of `MoveBulletCommand.run`: a live unit found at the advanced
position offset by `(+0.5, +0.5)` that is not the firing unit. -/
def hitCond (s : GameState) (b : Bullet) (newPos : Vec2) : Prop :=
  ∃ uIdx, s.findLiveUnit (newPos + (⟨0.5, 0.5⟩ : Vec2)) = some uIdx ∧ uIdx ≠ b.unitIdx

/-- Single-occupancy invariant: no two distinct live units share a grid cell. -/
def Occ (s : GameState) : Prop :=
  ∀ i j ui uj, s.units.get? i = some ui → s.units.get? j = some uj → i ≠ j →
    ui.status = .alive → uj.status = .alive → ui.position.cell ≠ uj.position.cell

/-- Notification invariant: each unit index has been broadcast as destroyed at
most once, and never while the unit is still alive. -/
def NotifyOnce (s : GameState) : Prop :=
  ∀ i : ℕ, s.destroyedLog.count i ≤ 1
    ∧ (s.unitStatus i = some .alive → s.destroyedLog.count i = 0)

/-- The player unit built by `GameState.__init__`. -/
noncomputable def initPlayer : Unit :=
  { position := ⟨8, 9⟩, status := .alive, tile := ⟨1, 0⟩,
    orientation := 0, weaponTarget := ⟨0, 0⟩, lastBulletEpoch := -100 }

/-- Fresh unit at position `p` with status `st` and default remaining fields. -/
noncomputable def mkUnit (p : Vec2) (st : Status) : Unit :=
  { position := p, status := st, tile := ⟨1, 0⟩,
    orientation := 0, weaponTarget := ⟨0, 0⟩, lastBulletEpoch := -100 }

/-- State with the default tunables and the given unit and bullet lists. -/
noncomputable def baseState (units : List Unit) (bullets : List Bullet) : GameState :=
  { epoch := 0
    worldSize := ⟨16, 10⟩
    ground := []
    walls := []
    units := units
    bullets := bullets
    bulletSpeed := 0.1
    bulletRange := 4
    bulletDelay := 5
    observers := [0, 1]
    destroyedLog := []
    observerCalls := [] }

/-- Fixture for C6: a destroyed unit precedes a live unit in the same cell. -/
noncomputable def c6State : GameState :=
  baseState [mkUnit ⟨0, 0⟩ .destroyed, mkUnit ⟨0, 0⟩ .alive] []

/-- Bullet fired from `(0,0)` toward `(3,0)`, currently at `(1,0)`, owned by
the unit at index 0. -/
noncomputable def c1Bullet : Bullet :=
  { position := ⟨1, 0⟩, status := .alive, tile := ⟨2, 1⟩, orientation := 0,
    unitIdx := 0, startPosition := ⟨0, 0⟩, endPosition := ⟨3, 0⟩ }

/-- Fixture for C1: a bullet one step away from a live enemy's cell, inside the
world, short of both its target and its range. -/
noncomputable def c1HitState : GameState :=
  { baseState [mkUnit ⟨5, 5⟩ .alive, mkUnit ⟨2, 0⟩ .alive] [c1Bullet] with
    bulletSpeed := 1 }

/-- The C1 example bullet, spawned at `(2,2)` aimed at `(6,2)`, currently at
`(x,2)`. -/
noncomputable def c1ExBullet (x : ℝ) : Bullet :=
  { position := ⟨x, 2⟩, status := .alive, tile := ⟨2, 1⟩, orientation := 0,
    unitIdx := 0, startPosition := ⟨2, 2⟩, endPosition := ⟨6, 2⟩ }

/-- Fixture for the C1 example: the bullet spawned at `(2,2)` aimed at `(6,2)`
with `bulletSpeed=0.1`, `bulletRange=4`, currently at `(x,2)`. -/
noncomputable def c1ExState (x : ℝ) : GameState :=
  baseState [mkUnit ⟨2, 2⟩ .alive] [c1ExBullet x]

/-- The C2 counterexample bullet: like `c1Bullet` but owned by unit 2. -/
noncomputable def c2Bullet : Bullet :=
  { position := ⟨1, 0⟩, status := .alive, tile := ⟨2, 1⟩, orientation := 0,
    unitIdx := 2, startPosition := ⟨0, 0⟩, endPosition := ⟨3, 0⟩ }

/-- Fixture for C2: the bullet advances into a cell where a destroyed unit
precedes a live non-firing unit. -/
noncomputable def c2State : GameState :=
  { baseState [mkUnit ⟨2, 0⟩ .destroyed, mkUnit ⟨2, 0⟩ .alive, mkUnit ⟨0, 0⟩ .alive]
      [c2Bullet] with
    bulletSpeed := 1 }

/-- Fixture for C2's hit-behaviour witness: a bullet one step from a live enemy,
with two registered observers. -/
noncomputable def c2HitState : GameState :=
  { baseState [mkUnit ⟨5, 5⟩ .alive, mkUnit ⟨2, 0⟩ .alive] [c1Bullet] with
    bulletSpeed := 1 }

/-- Fixture for C10: a live unit whose weapon target equals its own position. -/
noncomputable def c10State : GameState :=
  baseState [{ mkUnit ⟨3, 3⟩ .alive with weaponTarget := ⟨3, 3⟩ }] []

/-- A 2x2 tileset of 64x64 tiles with an external image, gids 1 to 4. -/
def unitTileset : TmxTileset :=
  { firstgid := 1, tilecount := 4, columns := 2, tilewidth := 64, tileheight := 64,
    image := { dataIsSome := false, source := "units.png" } }

/-- A well-formed 1x1 layer holding no entity. -/
def emptyLayer1 : TmxLayer := { isLayerType := true, tiles := [⟨0⟩] }

/-- A well-formed 1x1 layer holding one entity (gid 1). -/
def unitLayer1 : TmxLayer := { isLayerType := true, tiles := [⟨1⟩] }

/-- A 1x1 level whose tank layer and tower layer both place a unit on cell
`(0,0)`; every loader validation passes. -/
def overlapMap : TmxTileMap :=
  { orientation := "orthogonal", width := 1, height := 1,
    layers := [emptyLayer1, emptyLayer1, unitLayer1, unitLayer1, emptyLayer1],
    tilesets := [unitTileset] }

/-- A 1x1 level whose ground layer is valid but whose walls layer has the wrong
number of tiles, so loading fails after `worldSize` and `ground` are replaced. -/
def failMap : TmxTileMap :=
  { orientation := "orthogonal", width := 1, height := 1,
    layers := [emptyLayer1, { isLayerType := true, tiles := [] },
               emptyLayer1, emptyLayer1, emptyLayer1],
    tilesets := [unitTileset] }

/-!
Helper lemmas.
-/

theorem trunc_of_nonneg {r : ℝ} (h : 0 ≤ r) : trunc r = ⌊r⌋ := if_pos h

theorem trunc_natCast (n : ℕ) : trunc (n : ℝ) = n := by
  rw [trunc_of_nonneg (by positivity)]; exact_mod_cast Int.floor_intCast n

theorem List.set_get?_same {α : Type} {l : List α} {i : ℕ} {a : α}
    (h : l.get? i = some a) : l.set i a = l := by
  induction l generalizing i with
  | nil => simp at h
  | cons x xs ih =>
    cases i with
    | zero =>
      rw [List.get?_cons_zero] at h
      injection h with h
      simp [h]
    | succ n =>
      rw [List.get?_cons_succ] at h
      simp [ih h]

theorem get?_set_same {α : Type} {l : List α} {i : ℕ} {a b : α}
    (h : l.get? i = some b) : (l.set i a).get? i = some a := by
  rw [List.get?_set_eq]; rw [h]; rfl

theorem mem_iff_exists_get? {α : Type} {l : List α} {a : α} :
    a ∈ l ↔ ∃ n, l.get? n = some a := by
  constructor
  · intro h
    rcases List.mem_iff_get.mp h with ⟨n, rfl⟩
    exact ⟨n, List.get?_eq_get n.2⟩
  · rintro ⟨n, h⟩
    rcases List.get?_eq_some.mp h with ⟨hn, rfl⟩
    exact List.get_mem l n hn

theorem findUnitAux_eq_none_iff (p : Vec2) (l : List Unit) (i : ℕ) :
    findUnitAux p l i = none ↔ ∀ u ∈ l, u.position.cell ≠ p.cell := by
  induction l generalizing i with
  | nil => simp [findUnitAux]
  | cons u rest ih =>
    by_cases h : u.position.cell = p.cell
    · simp [findUnitAux, h]
    · simp [findUnitAux, h, ih]

theorem findUnitAux_eq_some_iff (p : Vec2) (l : List Unit) (i j : ℕ) :
    findUnitAux p l i = some j ↔
      ∃ k u, j = i + k ∧ l.get? k = some u ∧ u.position.cell = p.cell ∧
        ∀ m v, m < k → l.get? m = some v → v.position.cell ≠ p.cell := by
  induction l generalizing i j with
  | nil => simp [findUnitAux]
  | cons u rest ih =>
    by_cases h : u.position.cell = p.cell
    · simp only [findUnitAux, if_pos h, Option.some.injEq]
      constructor
      · rintro rfl
        exact ⟨0, u, by simp, by simp, h, by simp⟩
      · rintro ⟨k, v, rfl, hget, hcell, hmin⟩
        cases k with
        | zero => simp
        | succ n =>
          exact absurd h (hmin 0 u (Nat.succ_pos n) (by simp))
    · simp only [findUnitAux, if_neg h, ih]
      constructor
      · rintro ⟨k, v, rfl, hget, hcell, hmin⟩
        refine ⟨k + 1, v, by omega, by simpa using hget, hcell, ?_⟩
        intro m w hm hw
        cases m with
        | zero => simp at hw; subst hw; exact h
        | succ m' => exact hmin m' w (by omega) (by simpa using hw)
      · rintro ⟨k, v, hj, hget, hcell, hmin⟩
        cases k with
        | zero => simp at hget; subst hget; exact absurd hcell h
        | succ n =>
          refine ⟨n, v, by omega, by simpa using hget, hcell, ?_⟩
          intro m w hm hw
          exact hmin (m + 1) w (by omega) (by simpa using hw)

theorem GameState.findUnit_eq_some_iff (s : GameState) (p : Vec2) (j : ℕ) :
    s.findUnit p = some j ↔
      ∃ u, s.units.get? j = some u ∧ u.position.cell = p.cell ∧
        ∀ m v, m < j → s.units.get? m = some v → v.position.cell ≠ p.cell := by
  rw [GameState.findUnit, findUnitAux_eq_some_iff]
  constructor
  · rintro ⟨k, u, rfl, h⟩; exact ⟨u, by simpa using h⟩
  · rintro ⟨u, h⟩; exact ⟨j, u, by simp, h⟩

theorem GameState.findUnit_eq_none_iff (s : GameState) (p : Vec2) :
    s.findUnit p = none ↔ ∀ u ∈ s.units, u.position.cell ≠ p.cell :=
  findUnitAux_eq_none_iff p s.units 0

theorem GameState.findUnit_eq_none_iff_get? (s : GameState) (p : Vec2) :
    s.findUnit p = none ↔ ∀ j v, s.units.get? j = some v → v.position.cell ≠ p.cell := by
  rw [GameState.findUnit_eq_none_iff]
  constructor
  · intro h j v hv
    exact h v (mem_iff_exists_get?.mpr ⟨j, hv⟩)
  · intro h u hu
    rcases mem_iff_exists_get?.mp hu with ⟨n, hn⟩
    exact h n u hn

theorem GameState.findLiveUnit_eq_some_iff (s : GameState) (p : Vec2) (j : ℕ) :
    s.findLiveUnit p = some j ↔ s.findUnit p = some j ∧ s.unitStatus j = some .alive := by
  rw [GameState.findLiveUnit]
  cases h : s.findUnit p with
  | none => simp
  | some i =>
    show (if s.unitStatus i = some .alive then some i else none) = some j ↔
      some i = some j ∧ s.unitStatus j = some .alive
    by_cases ha : s.unitStatus i = some .alive
    · rw [if_pos ha]
      constructor
      · intro h; injection h with h; subst h; exact ⟨rfl, ha⟩
      · rintro ⟨hj, _⟩; injection hj with hj; subst hj; rfl
    · rw [if_neg ha]
      constructor
      · rintro ⟨⟩
      · rintro ⟨hj, hs⟩; injection hj with hj; subst hj; exact absurd hs ha

theorem findUnitAux_congr (p : Vec2) (l l' : List Unit)
    (h : l.map Unit.position = l'.map Unit.position) (i : ℕ) :
    findUnitAux p l i = findUnitAux p l' i := by
  induction l generalizing l' i with
  | nil => cases l' with
    | nil => rfl
    | cons v vs => simp at h
  | cons u us ih =>
    cases l' with
    | nil => simp at h
    | cons v vs =>
      simp only [List.map_cons, List.cons.injEq] at h
      rw [findUnitAux, findUnitAux, h.1]
      by_cases hc : v.position.cell = p.cell
      · simp [hc]
      · simp only [if_neg hc]; exact ih vs h.2 (i + 1)

theorem setUnit_setUnit (s : GameState) (i : ℕ) (u v : Unit) :
    (s.setUnit i u).setUnit i v = s.setUnit i v := by
  unfold GameState.setUnit
  simp [List.set_set]

theorem setUnit_findUnit (s : GameState) (uIdx : ℕ) (u u1 : Unit)
    (hu : s.units.get? uIdx = some u) (hpos : u1.position = u.position) (p : Vec2) :
    (s.setUnit uIdx u1).findUnit p = s.findUnit p := by
  unfold GameState.findUnit GameState.setUnit
  apply findUnitAux_congr
  show (s.units.set uIdx u1).map Unit.position = s.units.map Unit.position
  rw [List.map_set, hpos]
  apply List.set_get?_same
  rw [List.get?_map, hu]
  rfl

theorem moveRun_invalid (s : GameState) (uIdx : ℕ) (mv : Vec2)
    (h : s.units.get? uIdx = none) : MoveCommand.run s uIdx mv = s := by
  simp only [MoveCommand.run, h]

theorem moveRun_dead (s : GameState) (uIdx : ℕ) (mv : Vec2) (u : Unit)
    (hu : s.units.get? uIdx = some u) (hst : ¬ u.status = .alive) :
    MoveCommand.run s uIdx mv = s := by
  simp only [MoveCommand.run, hu]
  rw [if_neg hst]

theorem moveRun_alive (s : GameState) (uIdx : ℕ) (mv : Vec2) (u : Unit)
    (hu : s.units.get? uIdx = some u) (hst : u.status = .alive) :
    MoveCommand.run s uIdx mv =
      if s.isInside (u.position + mv) then
        if s.wallAt (u.position + mv) = none then
          if (s.setUnit uIdx
              { u with orientation := orientAfter mv u.orientation }).findUnit
                (u.position + mv) = none then
            (s.setUnit uIdx { u with orientation := orientAfter mv u.orientation }).setUnit uIdx
              { u with orientation := orientAfter mv u.orientation, position := u.position + mv }
          else s.setUnit uIdx { u with orientation := orientAfter mv u.orientation }
        else s.setUnit uIdx { u with orientation := orientAfter mv u.orientation }
      else s.setUnit uIdx { u with orientation := orientAfter mv u.orientation } := by
  simp only [MoveCommand.run, hu]
  rw [if_pos hst]

theorem moveRun_commit (s : GameState) (uIdx : ℕ) (mv : Vec2) (u : Unit)
    (hu : s.units.get? uIdx = some u) (hst : u.status = .alive)
    (hin : s.isInside (u.position + mv)) (hw : s.wallAt (u.position + mv) = none)
    (hf : s.findUnit (u.position + mv) = none) :
    MoveCommand.run s uIdx mv =
      s.setUnit uIdx
        { u with orientation := orientAfter mv u.orientation, position := u.position + mv } := by
  rw [moveRun_alive s uIdx mv u hu hst]
  have hf1 : (s.setUnit uIdx
      { u with orientation := orientAfter mv u.orientation }).findUnit (u.position + mv) = none := by
    rw [setUnit_findUnit s uIdx u { u with orientation := orientAfter mv u.orientation } hu rfl]
    exact hf
  rw [if_pos hin, if_pos hw, if_pos hf1, setUnit_setUnit]

theorem moveRun_reject (s : GameState) (uIdx : ℕ) (mv : Vec2) (u : Unit)
    (hu : s.units.get? uIdx = some u) (hst : u.status = .alive)
    (hrej : ¬ (s.isInside (u.position + mv) ∧ s.wallAt (u.position + mv) = none
      ∧ s.findUnit (u.position + mv) = none)) :
    MoveCommand.run s uIdx mv =
      s.setUnit uIdx { u with orientation := orientAfter mv u.orientation } := by
  rw [moveRun_alive s uIdx mv u hu hst]
  rw [setUnit_findUnit s uIdx u { u with orientation := orientAfter mv u.orientation } hu rfl]
  by_cases h1 : s.isInside (u.position + mv)
  · rw [if_pos h1]
    by_cases h2 : s.wallAt (u.position + mv) = none
    · rw [if_pos h2]
      have h3 : ¬ s.findUnit (u.position + mv) = none := fun h3 => hrej ⟨h1, h2, h3⟩
      rw [if_neg h3]
    · rw [if_neg h2]
  · rw [if_neg h1]

theorem isInside_congr (s s' : GameState) (h : s'.worldSize = s.worldSize) (p : Vec2) :
    s'.isInside p ↔ s.isInside p := by
  unfold GameState.isInside GameState.worldWidth GameState.worldHeight
  rw [h]

theorem wallAt_congr (s s' : GameState) (h : s'.walls = s.walls) (p : Vec2) :
    s'.wallAt p = s.wallAt p := by
  unfold GameState.wallAt
  rw [h]

/-- C3: `MoveCommand` is a no-op for a non-alive unit; for a live unit it sets
the orientation from the move vector's signs with the vertical assignment
overriding the horizontal one (dx<0 gives 90, dx>0 gives -90, then dy<0 gives
0, dy>0 gives 180), and commits `position := position + moveVector` if and
only if the candidate position is inside the world, the candidate cell holds
no wall, and no unit (alive or destroyed) occupies the candidate cell; on
rejection only the orientation changes, and no error is raised (`run` is
total). -/
theorem claim_C3_moveCommand (s : GameState) (uIdx : ℕ) (u : Unit) (mv : Vec2)
    (hu : s.units.get? uIdx = some u) :
    (u.status ≠ .alive → MoveCommand.run s uIdx mv = s)
    ∧ (u.status = .alive →
        orientAfter mv u.orientation =
          (if mv.y < 0 then 0 else if 0 < mv.y then 180
           else if mv.x < 0 then 90 else if 0 < mv.x then -90 else u.orientation)
        ∧ ((s.isInside (u.position + mv) ∧ s.wallAt (u.position + mv) = none ∧
              (∀ j v, s.units.get? j = some v → v.position.cell ≠ (u.position + mv).cell)) →
            MoveCommand.run s uIdx mv =
              s.setUnit uIdx { u with orientation := orientAfter mv u.orientation,
                                      position := u.position + mv })
        ∧ (¬ (s.isInside (u.position + mv) ∧ s.wallAt (u.position + mv) = none ∧
              (∀ j v, s.units.get? j = some v → v.position.cell ≠ (u.position + mv).cell)) →
            MoveCommand.run s uIdx mv =
              s.setUnit uIdx { u with orientation := orientAfter mv u.orientation })) := by
  refine ⟨fun hst => moveRun_dead s uIdx mv u hu hst, fun hst => ⟨rfl, ?_, ?_⟩⟩
  · rintro ⟨hin, hw, hf⟩
    exact moveRun_commit s uIdx mv u hu hst hin hw
      ((s.findUnit_eq_none_iff_get? (u.position + mv)).mpr hf)
  · intro hrej
    apply moveRun_reject s uIdx mv u hu hst
    rintro ⟨hin, hw, hf⟩
    exact hrej ⟨hin, hw, (s.findUnit_eq_none_iff_get? (u.position + mv)).mp hf⟩

/-- Witness for C3 at the initial state's player unit. -/
theorem claim_C3_moveCommand_witness :
    GameState.init.units.get? 0 = some initPlayer ∧
      (initPlayer.status ≠ .alive →
        MoveCommand.run GameState.init 0 ⟨0, -1⟩ = GameState.init) :=
  ⟨rfl, (claim_C3_moveCommand GameState.init 0 initPlayer ⟨0, -1⟩ rfl).1⟩

/-- C9: for a live unit whose candidate position is off-grid or lands on a
wall, running `MoveCommand` any number of times leaves the unit's position
unchanged after every run, while each run reassigns the orientation from the
move vector's signs. -/
theorem claim_C9_moveCommand_idempotent (s : GameState) (uIdx : ℕ) (u : Unit) (mv : Vec2)
    (hu : s.units.get? uIdx = some u) (hst : u.status = .alive)
    (hrej : ¬ s.isInside (u.position + mv) ∨ s.wallAt (u.position + mv) ≠ none) :
    ∀ n : ℕ, ∃ un : Unit,
      ((fun st => MoveCommand.run st uIdx mv)^[n] s).units.get? uIdx = some un
      ∧ un.position = u.position ∧ un.status = .alive
      ∧ ((fun st => MoveCommand.run st uIdx mv)^[n + 1] s).units.get? uIdx
          = some { un with orientation := orientAfter mv un.orientation } := by
  have main : ∀ n : ℕ, ∃ un : Unit,
      ((fun st => MoveCommand.run st uIdx mv)^[n] s).units.get? uIdx = some un
      ∧ un.position = u.position ∧ un.status = .alive
      ∧ ((fun st => MoveCommand.run st uIdx mv)^[n] s).worldSize = s.worldSize
      ∧ ((fun st => MoveCommand.run st uIdx mv)^[n] s).walls = s.walls := by
    intro n
    induction n with
    | zero => exact ⟨u, hu, rfl, hst, rfl, rfl⟩
    | succ n ih =>
      rcases ih with ⟨un, hget, hpos, hstn, hws, hwalls⟩
      rw [Function.iterate_succ_apply']
      set sn := (fun st => MoveCommand.run st uIdx mv)^[n] s with hsn
      have hrejn : ¬ (sn.isInside (un.position + mv) ∧ sn.wallAt (un.position + mv) = none
          ∧ sn.findUnit (un.position + mv) = none) := by
        rw [hpos]
        rintro ⟨h1, h2, _⟩
        rcases hrej with h | h
        · exact h ((isInside_congr s sn hws (u.position + mv)).mp h1)
        · exact h ((wallAt_congr s sn hwalls (u.position + mv)) ▸ h2)
      have hstep := moveRun_reject sn uIdx mv un hget hstn hrejn
      refine ⟨{ un with orientation := orientAfter mv un.orientation }, ?_, hpos, hstn, ?_, ?_⟩
      · rw [hstep]
        exact get?_set_same hget
      · rw [hstep]
        exact hws
      · rw [hstep]
        exact hwalls
  intro n
  rcases main n with ⟨un, hget, hpos, hstn, hws, hwalls⟩
  refine ⟨un, hget, hpos, hstn, ?_⟩
  rw [Function.iterate_succ_apply']
  set sn := (fun st => MoveCommand.run st uIdx mv)^[n] s with hsn
  have hrejn : ¬ (sn.isInside (un.position + mv) ∧ sn.wallAt (un.position + mv) = none
      ∧ sn.findUnit (un.position + mv) = none) := by
    rw [hpos]
    rintro ⟨h1, h2, _⟩
    rcases hrej with h | h
    · exact h ((isInside_congr s sn hws (u.position + mv)).mp h1)
    · exact h ((wallAt_congr s sn hwalls (u.position + mv)) ▸ h2)
  rw [moveRun_reject sn uIdx mv un hget hstn hrejn]
  exact get?_set_same hget

/-- Witness for C9: the initial player at `(8,9)` moving down toward `(8,10)`,
which is outside the 16x10 world. -/
theorem claim_C9_moveCommand_idempotent_witness :
    GameState.init.units.get? 0 = some initPlayer ∧ initPlayer.status = .alive ∧
      ¬ GameState.init.isInside (initPlayer.position + ⟨0, 1⟩) ∧
      (∃ un : Unit,
        ((fun st => MoveCommand.run st 0 ⟨0, 1⟩)^[2] GameState.init).units.get? 0 = some un
        ∧ un.position = initPlayer.position ∧ un.status = .alive
        ∧ ((fun st => MoveCommand.run st 0 ⟨0, 1⟩)^[3] GameState.init).units.get? 0
            = some { un with orientation := orientAfter ⟨0, 1⟩ un.orientation }) := by
  have hnotin : ¬ GameState.init.isInside (initPlayer.position + ⟨0, 1⟩) := by
    unfold GameState.isInside GameState.worldHeight
    rintro ⟨-, -, -, h4⟩
    rw [show initPlayer.position + (⟨0, 1⟩ : Vec2) = ⟨8, 10⟩ by
      rw [Vec2.add_def]; norm_num [initPlayer]] at h4
    rw [show GameState.init.worldSize = ⟨16, 10⟩ from rfl] at h4
    norm_num [trunc] at h4
  exact ⟨rfl, rfl, hnotin,
    claim_C9_moveCommand_idempotent GameState.init 0 initPlayer ⟨0, 1⟩ rfl rfl (Or.inl hnotin) 2⟩

theorem shootRun_dead (s : GameState) (uIdx : ℕ) (u : Unit)
    (hu : s.units.get? uIdx = some u) (hst : ¬ u.status = .alive) :
    ShootCommand.run s uIdx = s := by
  simp only [ShootCommand.run, hu]
  rw [if_neg hst]

theorem shootRun_cooldown (s : GameState) (uIdx : ℕ) (u : Unit)
    (hu : s.units.get? uIdx = some u) (hst : u.status = .alive)
    (hc : s.epoch - u.lastBulletEpoch < s.bulletDelay) :
    ShootCommand.run s uIdx = s := by
  simp only [ShootCommand.run, hu]
  rw [if_pos hst, if_pos hc]

theorem shootRun_fire (s : GameState) (uIdx : ℕ) (u : Unit)
    (hu : s.units.get? uIdx = some u) (hst : u.status = .alive)
    (hc : ¬ (s.epoch - u.lastBulletEpoch < s.bulletDelay)) :
    ShootCommand.run s uIdx =
      { s with units := s.units.set uIdx { u with lastBulletEpoch := s.epoch },
               bullets := s.bullets ++ [Bullet.mkFrom uIdx u] } := by
  simp only [ShootCommand.run, hu]
  rw [if_pos hst, if_neg hc]

/-- C4: `ShootCommand` is a no-op for a destroyed unit and while
`epoch - lastBulletEpoch < bulletDelay`; otherwise it stamps
`lastBulletEpoch := epoch` and appends exactly one bullet spawned at the
unit's position aimed at its weapon target; consequently firing at epoch `E`,
again at `E + bulletDelay - 1`, and again at `E + bulletDelay` produces
exactly one bullet, then a second one. -/
theorem claim_C4_shootCommand (s : GameState) (uIdx : ℕ) (u : Unit)
    (hu : s.units.get? uIdx = some u) :
    (u.status ≠ .alive → ShootCommand.run s uIdx = s)
    ∧ (u.status = .alive ∧ s.epoch - u.lastBulletEpoch < s.bulletDelay →
        ShootCommand.run s uIdx = s)
    ∧ (u.status = .alive ∧ s.bulletDelay ≤ s.epoch - u.lastBulletEpoch →
        ShootCommand.run s uIdx =
          { s with units := s.units.set uIdx { u with lastBulletEpoch := s.epoch },
                   bullets := s.bullets ++ [Bullet.mkFrom uIdx u] }
        ∧ (ShootCommand.run s uIdx).bullets.get? s.bullets.length = some (Bullet.mkFrom uIdx u)
        ∧ (Bullet.mkFrom uIdx u).position = u.position
        ∧ (Bullet.mkFrom uIdx u).startPosition = u.position
        ∧ (Bullet.mkFrom uIdx u).endPosition = u.weaponTarget
        ∧ (Bullet.mkFrom uIdx u).status = .alive
        ∧ (ShootCommand.run s uIdx).bullets.length = s.bullets.length + 1
        ∧ (let s1 := ShootCommand.run s uIdx
           let s2 := ShootCommand.run { s1 with epoch := s.epoch + s.bulletDelay - 1 } uIdx
           let s3 := ShootCommand.run { s2 with epoch := s.epoch + s.bulletDelay } uIdx
           s2.bullets = s1.bullets ∧ s3.bullets.length = s.bullets.length + 2)) := by
  refine ⟨fun hst => shootRun_dead s uIdx u hu hst,
    fun h => shootRun_cooldown s uIdx u hu h.1 h.2, fun h => ?_⟩
  obtain ⟨hst, hd⟩ := h
  have hc : ¬ (s.epoch - u.lastBulletEpoch < s.bulletDelay) := not_lt.mpr hd
  have hfire := shootRun_fire s uIdx u hu hst hc
  refine ⟨hfire, ?_, rfl, rfl, rfl, rfl, ?_, ?_, ?_⟩
  · rw [hfire]
    exact List.get?_concat_length s.bullets (Bullet.mkFrom uIdx u)
  · rw [hfire]
    simp
  · -- s2 is a no-op: the stamped unit's cooldown has not yet elapsed
    have e1 : ShootCommand.run { ShootCommand.run s uIdx with
        epoch := s.epoch + s.bulletDelay - 1 } uIdx
        = { ShootCommand.run s uIdx with epoch := s.epoch + s.bulletDelay - 1 } := by
      apply shootRun_cooldown _ uIdx { u with lastBulletEpoch := s.epoch }
      · show (ShootCommand.run s uIdx).units.get? uIdx = _
        rw [hfire]
        exact get?_set_same hu
      · exact hst
      · simp only [hfire]
        show s.epoch + s.bulletDelay - 1 - s.epoch < s.bulletDelay
        omega
    show (ShootCommand.run { ShootCommand.run s uIdx with
        epoch := s.epoch + s.bulletDelay - 1 } uIdx).bullets
      = (ShootCommand.run s uIdx).bullets
    rw [e1]
  · have e1 : ShootCommand.run { ShootCommand.run s uIdx with
        epoch := s.epoch + s.bulletDelay - 1 } uIdx
        = { ShootCommand.run s uIdx with epoch := s.epoch + s.bulletDelay - 1 } := by
      apply shootRun_cooldown _ uIdx { u with lastBulletEpoch := s.epoch }
      · show (ShootCommand.run s uIdx).units.get? uIdx = _
        rw [hfire]
        exact get?_set_same hu
      · exact hst
      · simp only [hfire]
        show s.epoch + s.bulletDelay - 1 - s.epoch < s.bulletDelay
        omega
    have e2 := shootRun_fire
      { { ShootCommand.run s uIdx with epoch := s.epoch + s.bulletDelay - 1 } with
        epoch := s.epoch + s.bulletDelay } uIdx { u with lastBulletEpoch := s.epoch }
      (by show (ShootCommand.run s uIdx).units.get? uIdx = _
          rw [hfire]
          exact get?_set_same hu)
      hst
      (by simp only [hfire]
          show ¬ (s.epoch + s.bulletDelay - s.epoch < s.bulletDelay)
          omega)
    show (ShootCommand.run { ShootCommand.run { ShootCommand.run s uIdx with
        epoch := s.epoch + s.bulletDelay - 1 } uIdx with
        epoch := s.epoch + s.bulletDelay } uIdx).bullets.length = s.bullets.length + 2
    rw [e1, e2]
    show ((ShootCommand.run s uIdx).bullets
      ++ [Bullet.mkFrom uIdx { u with lastBulletEpoch := s.epoch }]).length
      = s.bullets.length + 2
    rw [hfire]
    simp only [List.length_append, List.length_cons, List.length_nil]

/-- Witness for C4 at the initial state's player unit (epoch 0, cooldown long
expired). -/
theorem claim_C4_shootCommand_witness :
    GameState.init.units.get? 0 = some initPlayer ∧ initPlayer.status = .alive ∧
      GameState.init.bulletDelay ≤ GameState.init.epoch - initPlayer.lastBulletEpoch ∧
      (ShootCommand.run GameState.init 0).bullets.length
        = GameState.init.bullets.length + 1 := by
  have h1 : GameState.init.units.get? 0 = some initPlayer := rfl
  have h2 : initPlayer.status = .alive := rfl
  have h3 : GameState.init.bulletDelay ≤ GameState.init.epoch - initPlayer.lastBulletEpoch := by
    show (5 : ℤ) ≤ 0 - (-100)
    norm_num
  exact ⟨h1, h2, h3,
    ((claim_C4_shootCommand GameState.init 0 initPlayer h1).2.2 ⟨h2, h3⟩).2.2.2.2.2.2.1⟩

/-- C6 counterexample: in `c6State` a destroyed unit precedes a live unit in
cell `(0,0)`.  The claim says `findLiveUnit` returns the first *live* unit at
the cell (index 1, as the spec-side `specFirstLiveUnitAt` does); the source
instead returns `none` because the first unit at the cell is destroyed. -/
theorem claim_C6_counterexample :
    c6State.findLiveUnit ⟨0, 0⟩ = none
    ∧ c6State.units.get? 1 = some (mkUnit ⟨0, 0⟩ .alive)
    ∧ (mkUnit ⟨0, 0⟩ .alive).status = .alive
    ∧ (mkUnit ⟨0, 0⟩ .alive).position.cell = (Vec2.mk 0 0).cell
    ∧ specFirstLiveUnitAt c6State ⟨0, 0⟩ = some 1 := by
  have hfu : c6State.findUnit ⟨0, 0⟩ = some 0 := by
    show findUnitAux ⟨0, 0⟩ [mkUnit ⟨0, 0⟩ .destroyed, mkUnit ⟨0, 0⟩ .alive] 0 = some 0
    rw [findUnitAux]
    rw [if_pos]
    rfl
  refine ⟨?_, rfl, rfl, rfl, ?_⟩
  · show (match c6State.findUnit ⟨0, 0⟩ with
      | none => none
      | some i => if c6State.unitStatus i = some .alive then some i else none) = none
    rw [hfu]
    show (if c6State.unitStatus 0 = some .alive then some 0 else none) = none
    rw [if_neg]
    intro h
    exact absurd h (by decide)
  · show specFirstLiveUnitAtAux ⟨0, 0⟩
      [mkUnit ⟨0, 0⟩ .destroyed, mkUnit ⟨0, 0⟩ .alive] 0 = some 1
    rw [specFirstLiveUnitAtAux]
    rw [if_neg]
    · rw [specFirstLiveUnitAtAux]
      rw [if_pos ⟨rfl, rfl⟩]
    · rintro ⟨-, h⟩
      exact absurd h (by decide)

/-- C6 (amended): `findUnit(p)` returns the first unit in list order whose
truncated integer position equals that of `p` (else `none`), and
`findLiveUnit(p)` returns that same first unit only when it is alive — when a
destroyed unit precedes a live unit in the cell, `none` is returned rather
than the first live one. -/
theorem claim_C6_findLiveUnit (s : GameState) (p : Vec2) :
    (∀ j : ℕ, s.findUnit p = some j ↔
      ∃ u, s.units.get? j = some u ∧ u.position.cell = p.cell ∧
        ∀ m v, m < j → s.units.get? m = some v → v.position.cell ≠ p.cell)
    ∧ (s.findUnit p = none ↔ ∀ u ∈ s.units, u.position.cell ≠ p.cell)
    ∧ (∀ j : ℕ, s.findLiveUnit p = some j ↔
        s.findUnit p = some j ∧ s.unitStatus j = some .alive) :=
  ⟨fun j => s.findUnit_eq_some_iff p j, s.findUnit_eq_none_iff p,
    fun j => s.findLiveUnit_eq_some_iff p j⟩

/-!
Case lemmas for `MoveBulletCommand.run`.
-/

theorem bulletRun_invalid (s : GameState) (bIdx : ℕ)
    (h : s.bullets.get? bIdx = none) : MoveBulletCommand.run s bIdx = some s := by
  simp only [MoveBulletCommand.run, h]

theorem bulletRun_zeroDir (s : GameState) (bIdx : ℕ) (b : Bullet)
    (hb : s.bullets.get? bIdx = some b)
    (hz : Vec2.normalize? (b.endPosition - b.startPosition) = none) :
    MoveBulletCommand.run s bIdx = none := by
  simp only [MoveBulletCommand.run, hb, hz]

theorem bulletRun_out (s : GameState) (bIdx : ℕ) (b : Bullet) (dir : Vec2)
    (hb : s.bullets.get? bIdx = some b)
    (hdir : Vec2.normalize? (b.endPosition - b.startPosition) = some dir)
    (h1 : ¬ s.isInside (b.position + s.bulletSpeed • dir)) :
    MoveBulletCommand.run s bIdx = some (s.setBullet bIdx { b with status := .destroyed }) := by
  simp only [MoveBulletCommand.run, hb, hdir]
  rw [if_pos h1]

theorem bulletRun_arrived (s : GameState) (bIdx : ℕ) (b : Bullet) (dir : Vec2)
    (hb : s.bullets.get? bIdx = some b)
    (hdir : Vec2.normalize? (b.endPosition - b.startPosition) = some dir)
    (h1 : s.isInside (b.position + s.bulletSpeed • dir))
    (h2 : arrived dir (b.position + s.bulletSpeed • dir) b.endPosition) :
    MoveBulletCommand.run s bIdx = some (s.setBullet bIdx { b with status := .destroyed }) := by
  simp only [MoveBulletCommand.run, hb, hdir]
  rw [if_neg (not_not_intro h1), if_pos h2]

theorem bulletRun_range (s : GameState) (bIdx : ℕ) (b : Bullet) (dir : Vec2)
    (hb : s.bullets.get? bIdx = some b)
    (hdir : Vec2.normalize? (b.endPosition - b.startPosition) = some dir)
    (h1 : s.isInside (b.position + s.bulletSpeed • dir))
    (h2 : ¬ arrived dir (b.position + s.bulletSpeed • dir) b.endPosition)
    (h3 : s.bulletRange ≤ Vec2.dist (b.position + s.bulletSpeed • dir) b.startPosition) :
    MoveBulletCommand.run s bIdx = some (s.setBullet bIdx { b with status := .destroyed }) := by
  simp only [MoveBulletCommand.run, hb, hdir]
  rw [if_neg (not_not_intro h1), if_neg h2, if_pos h3]

theorem bulletRun_hit (s : GameState) (bIdx : ℕ) (b : Bullet) (dir : Vec2) (uIdx : ℕ)
    (hb : s.bullets.get? bIdx = some b)
    (hdir : Vec2.normalize? (b.endPosition - b.startPosition) = some dir)
    (h1 : s.isInside (b.position + s.bulletSpeed • dir))
    (h2 : ¬ arrived dir (b.position + s.bulletSpeed • dir) b.endPosition)
    (h3 : ¬ s.bulletRange ≤ Vec2.dist (b.position + s.bulletSpeed • dir) b.startPosition)
    (hfind : s.findLiveUnit (b.position + s.bulletSpeed • dir + (⟨0.5, 0.5⟩ : Vec2)) = some uIdx)
    (hne : uIdx ≠ b.unitIdx) :
    MoveBulletCommand.run s bIdx =
      some (((s.setBullet bIdx { b with status := .destroyed }).destroyUnit
        uIdx).notifyUnitDestroyed uIdx) := by
  simp only [MoveBulletCommand.run, hb, hdir]
  rw [if_neg (not_not_intro h1), if_neg h2, if_neg h3, hfind]
  show (if uIdx ≠ b.unitIdx then _ else _) = _
  rw [if_pos hne]

theorem bulletRun_selfHit (s : GameState) (bIdx : ℕ) (b : Bullet) (dir : Vec2)
    (uIdx : ℕ) (hb : s.bullets.get? bIdx = some b)
    (hdir : Vec2.normalize? (b.endPosition - b.startPosition) = some dir)
    (h1 : s.isInside (b.position + s.bulletSpeed • dir))
    (h2 : ¬ arrived dir (b.position + s.bulletSpeed • dir) b.endPosition)
    (h3 : ¬ s.bulletRange ≤ Vec2.dist (b.position + s.bulletSpeed • dir) b.startPosition)
    (hfind : s.findLiveUnit (b.position + s.bulletSpeed • dir + (⟨0.5, 0.5⟩ : Vec2)) = some uIdx)
    (hne : ¬ uIdx ≠ b.unitIdx) :
    MoveBulletCommand.run s bIdx =
      some (s.setBullet bIdx { b with position := b.position + s.bulletSpeed • dir }) := by
  simp only [MoveBulletCommand.run, hb, hdir]
  rw [if_neg (not_not_intro h1), if_neg h2, if_neg h3, hfind]
  show (if uIdx ≠ b.unitIdx then _ else _) = _
  rw [if_neg hne]

theorem bulletRun_commit (s : GameState) (bIdx : ℕ) (b : Bullet) (dir : Vec2)
    (hb : s.bullets.get? bIdx = some b)
    (hdir : Vec2.normalize? (b.endPosition - b.startPosition) = some dir)
    (h1 : s.isInside (b.position + s.bulletSpeed • dir))
    (h2 : ¬ arrived dir (b.position + s.bulletSpeed • dir) b.endPosition)
    (h3 : ¬ s.bulletRange ≤ Vec2.dist (b.position + s.bulletSpeed • dir) b.startPosition)
    (hfind : s.findLiveUnit (b.position + s.bulletSpeed • dir + (⟨0.5, 0.5⟩ : Vec2)) = none) :
    MoveBulletCommand.run s bIdx =
      some (s.setBullet bIdx { b with position := b.position + s.bulletSpeed • dir }) := by
  simp only [MoveBulletCommand.run, hb, hdir]
  rw [if_neg (not_not_intro h1), if_neg h2, if_neg h3, hfind]

theorem destroyUnit_of_get? (s : GameState) (i : ℕ) (u : Unit)
    (h : s.units.get? i = some u) :
    s.destroyUnit i = s.setUnit i { u with status := .destroyed } := by
  simp only [GameState.destroyUnit, h]

theorem unitStatus_alive (s : GameState) (i : ℕ) (h : s.unitStatus i = some .alive) :
    ∃ u, s.units.get? i = some u ∧ u.status = .alive := by
  unfold GameState.unitStatus at h
  cases hg : s.units.get? i with
  | none => rw [hg] at h; simp at h
  | some u =>
    rw [hg] at h
    simp only [Option.map_some'] at h
    injection h with h
    exact ⟨u, rfl, h⟩

theorem bulletRun_shape (s : GameState) (bIdx : ℕ) (s' : GameState)
    (h : MoveBulletCommand.run s bIdx = some s') :
    s'.bullets.length = s.bullets.length
    ∧ s'.worldSize = s.worldSize ∧ s'.walls = s.walls ∧ s'.observers = s.observers
    ∧ (s'.units = s.units ∧ s'.destroyedLog = s.destroyedLog
       ∨ ∃ uIdx u, s.units.get? uIdx = some u ∧ u.status = .alive ∧
           s'.units = s.units.set uIdx { u with status := .destroyed } ∧
           s'.destroyedLog = s.destroyedLog ++ [uIdx]) := by
  cases hb : s.bullets.get? bIdx with
  | none =>
    rw [bulletRun_invalid s bIdx hb] at h
    injection h with h
    subst h
    exact ⟨rfl, rfl, rfl, rfl, Or.inl ⟨rfl, rfl⟩⟩
  | some b =>
    cases hdir : Vec2.normalize? (b.endPosition - b.startPosition) with
    | none =>
      rw [bulletRun_zeroDir s bIdx b hb hdir] at h
      exact absurd h (by simp)
    | some dir =>
      by_cases h1 : s.isInside (b.position + s.bulletSpeed • dir)
      case neg =>
        rw [bulletRun_out s bIdx b dir hb hdir h1] at h
        injection h with h
        subst h
        exact ⟨s.bullets.length_set bIdx _, rfl, rfl, rfl, Or.inl ⟨rfl, rfl⟩⟩
      case pos =>
      by_cases h2 : arrived dir (b.position + s.bulletSpeed • dir) b.endPosition
      case pos =>
        rw [bulletRun_arrived s bIdx b dir hb hdir h1 h2] at h
        injection h with h
        subst h
        exact ⟨s.bullets.length_set bIdx _, rfl, rfl, rfl, Or.inl ⟨rfl, rfl⟩⟩
      case neg =>
      by_cases h3 : s.bulletRange ≤ Vec2.dist (b.position + s.bulletSpeed • dir) b.startPosition
      case pos =>
        rw [bulletRun_range s bIdx b dir hb hdir h1 h2 h3] at h
        injection h with h
        subst h
        exact ⟨s.bullets.length_set bIdx _, rfl, rfl, rfl, Or.inl ⟨rfl, rfl⟩⟩
      case neg =>
      cases hfind : s.findLiveUnit (b.position + s.bulletSpeed • dir + (⟨0.5, 0.5⟩ : Vec2)) with
      | none =>
        rw [bulletRun_commit s bIdx b dir hb hdir h1 h2 h3 hfind] at h
        injection h with h
        subst h
        exact ⟨s.bullets.length_set bIdx _, rfl, rfl, rfl, Or.inl ⟨rfl, rfl⟩⟩
      | some uIdx =>
        by_cases hne : uIdx ≠ b.unitIdx
        case neg =>
          rw [bulletRun_selfHit s bIdx b dir uIdx hb hdir h1 h2 h3 hfind hne] at h
          injection h with h
          subst h
          exact ⟨s.bullets.length_set bIdx _, rfl, rfl, rfl, Or.inl ⟨rfl, rfl⟩⟩
        case pos =>
          obtain ⟨hfu, hstat⟩ := (s.findLiveUnit_eq_some_iff _ uIdx).mp hfind
          obtain ⟨u, hget, halive⟩ := unitStatus_alive s uIdx hstat
          rw [bulletRun_hit s bIdx b dir uIdx hb hdir h1 h2 h3 hfind hne] at h
          rw [destroyUnit_of_get? (s.setBullet bIdx { b with status := .destroyed }) uIdx u hget] at h
          injection h with h
          subst h
          exact ⟨s.bullets.length_set bIdx _, rfl, rfl, rfl,
            Or.inr ⟨uIdx, u, hget, halive, rfl, rfl⟩⟩

theorem targetRun_cases (s : GameState) (uIdx : ℕ) (t : Vec2) :
    TargetCommand.run s uIdx t = s ∨ ∃ u, s.units.get? uIdx = some u ∧
      TargetCommand.run s uIdx t = s.setUnit uIdx { u with weaponTarget := t } := by
  cases h : s.units.get? uIdx with
  | none => exact Or.inl (by simp only [TargetCommand.run, h])
  | some u => exact Or.inr ⟨u, rfl, by simp only [TargetCommand.run, h]⟩

theorem shootRun_cases (s : GameState) (uIdx : ℕ) :
    ShootCommand.run s uIdx = s ∨ ∃ u, s.units.get? uIdx = some u ∧ u.status = .alive ∧
      ShootCommand.run s uIdx =
        { s with units := s.units.set uIdx { u with lastBulletEpoch := s.epoch },
                 bullets := s.bullets ++ [Bullet.mkFrom uIdx u] } := by
  cases h : s.units.get? uIdx with
  | none => exact Or.inl (by simp only [ShootCommand.run, h])
  | some u =>
    by_cases hst : u.status = .alive
    · by_cases hc : s.epoch - u.lastBulletEpoch < s.bulletDelay
      · exact Or.inl (shootRun_cooldown s uIdx u h hst hc)
      · exact Or.inr ⟨u, rfl, hst, shootRun_fire s uIdx u h hst hc⟩
    · exact Or.inl (shootRun_dead s uIdx u h hst)

theorem moveRun_cases (s : GameState) (uIdx : ℕ) (mv : Vec2) :
    MoveCommand.run s uIdx mv = s ∨ ∃ u u1, s.units.get? uIdx = some u ∧ u.status = .alive ∧
      u1.status = u.status ∧ MoveCommand.run s uIdx mv = s.setUnit uIdx u1 ∧
      (u1.position = u.position
        ∨ (u1.position = u.position + mv ∧ s.findUnit (u.position + mv) = none)) := by
  cases h : s.units.get? uIdx with
  | none => exact Or.inl (moveRun_invalid s uIdx mv h)
  | some u =>
    by_cases hst : u.status = .alive
    · by_cases hcommit : s.isInside (u.position + mv) ∧ s.wallAt (u.position + mv) = none
        ∧ s.findUnit (u.position + mv) = none
      · refine Or.inr ⟨u, ?_⟩
        refine ⟨{ u with orientation := orientAfter mv u.orientation,
                         position := u.position + mv },
          rfl, hst, rfl, ?_, Or.inr ⟨rfl, hcommit.2.2⟩⟩
        exact moveRun_commit s uIdx mv u h hst hcommit.1 hcommit.2.1 hcommit.2.2
      · refine Or.inr ⟨u, ?_⟩
        refine ⟨{ u with orientation := orientAfter mv u.orientation },
          rfl, hst, rfl, ?_, Or.inl rfl⟩
        exact moveRun_reject s uIdx mv u h hst hcommit
    · exact Or.inl (moveRun_dead s uIdx mv u h hst)

theorem unitStatus_setUnit (s : GameState) (i : ℕ) (u u1 : Unit)
    (hu : s.units.get? i = some u) (hstat : u1.status = u.status) (j : ℕ) :
    (s.setUnit i u1).unitStatus j = s.unitStatus j := by
  unfold GameState.unitStatus GameState.setUnit
  by_cases hij : i = j
  · subst hij
    rw [show (s.units.set i u1).get? i = some u1 from get?_set_same hu, hu]
    simp [hstat]
  · rw [List.get?_set_ne u1 s.units hij]

theorem occ_congr (s s' : GameState)
    (h : ∀ j, (s'.units.get? j).map (fun u => (u.position.cell, u.status))
        = (s.units.get? j).map (fun u => (u.position.cell, u.status)))
    (inv : Occ s) : Occ s' := by
  intro i j ui uj hi hj hij hai haj
  have hi' := h i
  have hj' := h j
  rw [hi] at hi'
  rw [hj] at hj'
  cases hgi : s.units.get? i with
  | none => rw [hgi] at hi'; simp at hi'
  | some vi =>
    cases hgj : s.units.get? j with
    | none => rw [hgj] at hj'; simp at hj'
    | some vj =>
      rw [hgi] at hi'
      rw [hgj] at hj'
      simp only [Option.map_some'] at hi' hj'
      injection hi' with hi'
      injection hj' with hj'
      rw [Prod.mk.injEq] at hi' hj'
      rw [hi'.1, hj'.1]
      exact inv i j vi vj hgi hgj hij (hi'.2 ▸ hai) (hj'.2 ▸ haj)

theorem setUnit_sig (s : GameState) (i : ℕ) (u u1 : Unit)
    (hu : s.units.get? i = some u) (hpos : u1.position = u.position)
    (hstat : u1.status = u.status) (j : ℕ) :
    ((s.units.set i u1).get? j).map (fun u => (u.position.cell, u.status))
      = (s.units.get? j).map (fun u => (u.position.cell, u.status)) := by
  by_cases hij : i = j
  · subst hij
    rw [show (s.units.set i u1).get? i = some u1 from get?_set_same hu, hu]
    simp [hpos, hstat]
  · rw [List.get?_set_ne u1 s.units hij]

theorem execCmd_notifyOnce (c : Cmd) (s s' : GameState)
    (hc : c ≠ Cmd.deleteDestroyed ListSel.units)
    (h : execCmd c s = some s') (inv : NotifyOnce s) : NotifyOnce s' := by
  cases c with
  | move uIdx mv =>
    simp only [execCmd] at h
    injection h with h
    subst h
    rcases moveRun_cases s uIdx mv with heq | ⟨u, u1, hu, -, hstat, heq, -⟩
    · rw [heq]; exact inv
    · rw [heq]
      intro i
      have hl : (s.setUnit uIdx u1).destroyedLog = s.destroyedLog := rfl
      rw [hl, unitStatus_setUnit s uIdx u u1 hu hstat i]
      exact inv i
  | target uIdx t =>
    simp only [execCmd] at h
    injection h with h
    subst h
    rcases targetRun_cases s uIdx t with heq | ⟨u, hu, heq⟩
    · rw [heq]; exact inv
    · rw [heq]
      intro i
      have hl : (s.setUnit uIdx { u with weaponTarget := t }).destroyedLog = s.destroyedLog := rfl
      rw [hl, unitStatus_setUnit s uIdx u { u with weaponTarget := t } hu rfl i]
      exact inv i
  | shoot uIdx =>
    simp only [execCmd] at h
    injection h with h
    subst h
    rcases shootRun_cases s uIdx with heq | ⟨u, hu, -, heq⟩
    · rw [heq]; exact inv
    · rw [heq]
      intro i
      refine ⟨?_, ?_⟩
      · exact (inv i).1
      · intro ha
        refine (inv i).2 ?_
        calc s.unitStatus i
            = (s.setUnit uIdx { u with lastBulletEpoch := s.epoch }).unitStatus i :=
              (unitStatus_setUnit s uIdx u { u with lastBulletEpoch := s.epoch } hu rfl i).symm
          _ = some .alive := ha
  | moveBullet bIdx =>
    simp only [execCmd] at h
    obtain ⟨-, -, -, -, hshape⟩ := bulletRun_shape s bIdx s' h
    rcases hshape with ⟨hunits, hlog⟩ | ⟨uIdx, u, hget, halive, hunits, hlog⟩
    · intro i
      have : s'.unitStatus i = s.unitStatus i := by
        unfold GameState.unitStatus
        rw [hunits]
      rw [hlog, this]
      exact inv i
    · intro i
      have hsa : s.unitStatus uIdx = some .alive := by
        unfold GameState.unitStatus
        rw [hget]
        simp [halive]
      by_cases hi : i = uIdx
      · subst hi
        constructor
        · rw [hlog, List.count_append]
          have h0 : s.destroyedLog.count i = 0 := (inv i).2 hsa
          simp [h0]
        · intro ha
          have : s'.unitStatus i = some .destroyed := by
            unfold GameState.unitStatus
            rw [hunits, show (s.units.set i { u with status := .destroyed }).get? i
              = some { u with status := .destroyed } from get?_set_same hget]
            rfl
          rw [this] at ha
          injection ha with ha
          cases ha
      · constructor
        · rw [hlog, List.count_append]
          have : [uIdx].count i = 0 := by
            simp only [List.count_singleton]
            simp [Ne.symm hi]
          rw [this]
          simpa using (inv i).1
        · intro ha
          have hst : s'.unitStatus i = s.unitStatus i := by
            unfold GameState.unitStatus
            rw [hunits, List.get?_set_ne _ s.units (fun he => hi he.symm)]
          rw [hst] at ha
          rw [hlog, List.count_append]
          have h0 : s.destroyedLog.count i = 0 := (inv i).2 ha
          have h1 : [uIdx].count i = 0 := by
            simp only [List.count_singleton]
            simp [Ne.symm hi]
          rw [h0, h1]
  | deleteDestroyed sel =>
    cases sel with
    | units => exact absurd rfl hc
    | bullets =>
      simp only [execCmd] at h
      injection h with h
      subst h
      exact inv

theorem execAll_notifyOnce :
    ∀ (cmds : List Cmd) (s s' : GameState),
      Cmd.deleteDestroyed ListSel.units ∉ cmds →
      execAll cmds s = some s' → NotifyOnce s → NotifyOnce s' := by
  intro cmds
  induction cmds with
  | nil =>
    intro s s' _ h inv
    simp only [execAll] at h
    injection h with h
    subst h
    exact inv
  | cons c cs ih =>
    intro s s' hcmds h inv
    simp only [execAll] at h
    cases hc : execCmd c s with
    | none => rw [hc] at h; exact absurd h (by simp)
    | some s1 =>
      rw [hc] at h
      have hne : c ≠ Cmd.deleteDestroyed ListSel.units := fun he =>
        hcmds (he ▸ List.mem_cons_self c cs)
      exact ih s1 s' (fun hm => hcmds (List.mem_cons_of_mem c hm)) h
        (execCmd_notifyOnce c s s1 hne hc inv)

theorem execCmd_occ (c : Cmd) (s s' : GameState)
    (hc : c ≠ Cmd.deleteDestroyed ListSel.units)
    (h : execCmd c s = some s') (inv : Occ s) : Occ s' := by
  cases c with
  | move uIdx mv =>
    simp only [execCmd] at h
    injection h with h
    subst h
    rcases moveRun_cases s uIdx mv with heq | ⟨u, u1, hu, -, hstat, heq, hposcase⟩
    · rw [heq]; exact inv
    · rw [heq]
      rcases hposcase with hpos | ⟨hpos, hfind⟩
      · exact occ_congr s (s.setUnit uIdx u1) (setUnit_sig s uIdx u u1 hu hpos hstat) inv
      · have hnone := (s.findUnit_eq_none_iff_get? (u.position + mv)).mp hfind
        intro i j ui uj hi hj hij hai haj
        have hsplit : ∀ k w, (s.units.set uIdx u1).get? k = some w →
            (k = uIdx ∧ w = u1) ∨ (k ≠ uIdx ∧ s.units.get? k = some w) := by
          intro k w hw
          by_cases hk : k = uIdx
          · subst hk
            rw [get?_set_same hu] at hw
            injection hw with hw
            exact Or.inl ⟨rfl, hw.symm⟩
          · rw [List.get?_set_ne u1 s.units (fun he => hk he.symm)] at hw
            exact Or.inr ⟨hk, hw⟩
        rcases hsplit i ui hi with ⟨hiu, rfl⟩ | ⟨hiu, hi'⟩
        · rcases hsplit j uj hj with ⟨hju, rfl⟩ | ⟨-, hj'⟩
          · exact absurd (hiu.trans hju.symm) hij
          · have hne := hnone j uj hj'
            rw [hpos]
            exact Ne.symm hne
        · rcases hsplit j uj hj with ⟨-, rfl⟩ | ⟨-, hj'⟩
          · have hne := hnone i ui hi'
            rw [hpos]
            exact hne
          · exact inv i j ui uj hi' hj' hij hai haj
  | target uIdx t =>
    simp only [execCmd] at h
    injection h with h
    subst h
    rcases targetRun_cases s uIdx t with heq | ⟨u, hu, heq⟩
    · rw [heq]; exact inv
    · rw [heq]
      exact occ_congr s (s.setUnit uIdx { u with weaponTarget := t })
        (setUnit_sig s uIdx u { u with weaponTarget := t } hu rfl rfl) inv
  | shoot uIdx =>
    simp only [execCmd] at h
    injection h with h
    subst h
    rcases shootRun_cases s uIdx with heq | ⟨u, hu, -, heq⟩
    · rw [heq]; exact inv
    · rw [heq]
      exact occ_congr s _
        (setUnit_sig s uIdx u { u with lastBulletEpoch := s.epoch } hu rfl rfl) inv
  | moveBullet bIdx =>
    simp only [execCmd] at h
    obtain ⟨-, -, -, -, hshape⟩ := bulletRun_shape s bIdx s' h
    rcases hshape with ⟨hunits, -⟩ | ⟨uIdx, u, hget, -, hunits, -⟩
    · exact occ_congr s s' (fun j => by rw [hunits]) inv
    · intro i j ui uj hi hj hij hai haj
      rw [hunits] at hi hj
      have hsplit : ∀ k w, (s.units.set uIdx { u with status := .destroyed }).get? k = some w →
          (w = { u with status := .destroyed }) ∨ (k ≠ uIdx ∧ s.units.get? k = some w) := by
        intro k w hw
        by_cases hk : k = uIdx
        · subst hk
          rw [get?_set_same hget] at hw
          injection hw with hw
          exact Or.inl hw.symm
        · rw [List.get?_set_ne _ s.units (fun he => hk he.symm)] at hw
          exact Or.inr ⟨hk, hw⟩
      rcases hsplit i ui hi with rfl | ⟨-, hi'⟩
      · exact absurd hai (by simp)
      · rcases hsplit j uj hj with rfl | ⟨-, hj'⟩
        · exact absurd haj (by simp)
        · exact inv i j ui uj hi' hj' hij hai haj
  | deleteDestroyed sel =>
    cases sel with
    | units => exact absurd rfl hc
    | bullets =>
      simp only [execCmd] at h
      injection h with h
      subst h
      exact occ_congr s _ (fun j => rfl) inv

theorem execAll_occ :
    ∀ (cmds : List Cmd) (s s' : GameState),
      Cmd.deleteDestroyed ListSel.units ∉ cmds →
      execAll cmds s = some s' → Occ s → Occ s' := by
  intro cmds
  induction cmds with
  | nil =>
    intro s s' _ h inv
    simp only [execAll] at h
    injection h with h
    subst h
    exact inv
  | cons c cs ih =>
    intro s s' hcmds h inv
    simp only [execAll] at h
    cases hc : execCmd c s with
    | none => rw [hc] at h; exact absurd h (by simp)
    | some s1 =>
      rw [hc] at h
      have hne : c ≠ Cmd.deleteDestroyed ListSel.units := fun he =>
        hcmds (he ▸ List.mem_cons_self c cs)
      exact ih s1 s' (fun hm => hcmds (List.mem_cons_of_mem c hm)) h
        (execCmd_occ c s s1 hne hc inv)

theorem execCmd_units_length (c : Cmd) (s s' : GameState)
    (hc : c ≠ Cmd.deleteDestroyed ListSel.units)
    (h : execCmd c s = some s') : s'.units.length = s.units.length := by
  cases c with
  | move uIdx mv =>
    simp only [execCmd] at h
    injection h with h
    subst h
    rcases moveRun_cases s uIdx mv with heq | ⟨u, u1, hu, -, -, heq, -⟩
    · rw [heq]
    · rw [heq]
      exact s.units.length_set uIdx u1
  | target uIdx t =>
    simp only [execCmd] at h
    injection h with h
    subst h
    rcases targetRun_cases s uIdx t with heq | ⟨u, hu, heq⟩
    · rw [heq]
    · rw [heq]
      exact s.units.length_set uIdx _
  | shoot uIdx =>
    simp only [execCmd] at h
    injection h with h
    subst h
    rcases shootRun_cases s uIdx with heq | ⟨u, hu, -, heq⟩
    · rw [heq]
    · rw [heq]
      exact s.units.length_set uIdx _
  | moveBullet bIdx =>
    simp only [execCmd] at h
    obtain ⟨-, -, -, -, hshape⟩ := bulletRun_shape s bIdx s' h
    rcases hshape with ⟨hunits, -⟩ | ⟨uIdx, u, -, -, hunits, -⟩
    · rw [hunits]
    · rw [hunits]
      exact s.units.length_set uIdx _
  | deleteDestroyed sel =>
    cases sel with
    | units => exact absurd rfl hc
    | bullets =>
      simp only [execCmd] at h
      injection h with h
      subst h
      rfl

theorem execAll_units_length :
    ∀ (cmds : List Cmd) (s s' : GameState),
      Cmd.deleteDestroyed ListSel.units ∉ cmds →
      execAll cmds s = some s' → s'.units.length = s.units.length := by
  intro cmds
  induction cmds with
  | nil =>
    intro s s' _ h
    simp only [execAll] at h
    injection h with h
    subst h
    rfl
  | cons c cs ih =>
    intro s s' hcmds h
    simp only [execAll] at h
    cases hc : execCmd c s with
    | none => rw [hc] at h; exact absurd h (by simp)
    | some s1 =>
      rw [hc] at h
      have hne : c ≠ Cmd.deleteDestroyed ListSel.units := fun he =>
        hcmds (he ▸ List.mem_cons_self c cs)
      rw [ih s1 s' (fun hm => hcmds (List.mem_cons_of_mem c hm)) h]
      exact execCmd_units_length c s s1 hne hc

theorem Vec2.ext' (a b : Vec2) (hx : a.x = b.x) (hy : a.y = b.y) : a = b := by
  cases a
  cases b
  simp only [Vec2.mk.injEq]
  exact ⟨hx, hy⟩

theorem len_axis (a : ℝ) (h : 0 ≤ a) : Vec2.len ⟨a, 0⟩ = a := by
  unfold Vec2.len
  rw [show (a ^ 2 + (0:ℝ) ^ 2) = a ^ 2 by ring]
  exact Real.sqrt_sq h

theorem normalize_axis (a : ℝ) (h : 0 < a) : Vec2.normalize? ⟨a, 0⟩ = some ⟨1, 0⟩ := by
  unfold Vec2.normalize?
  rw [if_neg]
  · congr 1
    apply Vec2.ext'
    · show a / Vec2.len ⟨a, 0⟩ = 1
      rw [len_axis a h.le]
      exact div_self (ne_of_gt h)
    · show (0:ℝ) / Vec2.len ⟨a, 0⟩ = 0
      exact zero_div _
  · rintro ⟨ha, -⟩
    exact absurd ha (ne_of_gt h)

theorem dist_along_x (a b c : ℝ) : Vec2.dist ⟨a, c⟩ ⟨b, c⟩ = |a - b| := by
  unfold Vec2.dist Vec2.len
  show Real.sqrt ((a - b) ^ 2 + (c - c) ^ 2) = |a - b|
  rw [show ((a - b) ^ 2 + (c - c) ^ 2 : ℝ) = (a - b) ^ 2 by ring]
  exact Real.sqrt_sq_eq_abs _

/-- C10: `MoveBulletCommand.run` is not total: it faults (uncaught pygame
`ValueError` from normalising the zero direction) on every bullet whose
`endPosition` equals its `startPosition`, a state reachable because
`ShootCommand` spawns a bullet aimed at `weaponTarget` without checking it
differs from the unit's position; for every bullet with distinct endpoints the
command completes without fault. -/
theorem claim_C10_moveBullet_fault :
    (∀ s bIdx (b : Bullet), s.bullets.get? bIdx = some b →
      b.endPosition = b.startPosition → MoveBulletCommand.run s bIdx = none)
    ∧ (∀ s bIdx (b : Bullet), s.bullets.get? bIdx = some b →
      b.endPosition ≠ b.startPosition → (MoveBulletCommand.run s bIdx).isSome)
    ∧ ((ShootCommand.run c10State 0).bullets.get? 0
        = some (Bullet.mkFrom 0 { mkUnit ⟨3, 3⟩ .alive with weaponTarget := ⟨3, 3⟩ })
      ∧ (Bullet.mkFrom 0 { mkUnit ⟨3, 3⟩ .alive with weaponTarget := ⟨3, 3⟩ }).endPosition
        = (Bullet.mkFrom 0 { mkUnit ⟨3, 3⟩ .alive with weaponTarget := ⟨3, 3⟩ }).startPosition
      ∧ MoveBulletCommand.run (ShootCommand.run c10State 0) 0 = none) := by
  have p1 : ∀ s bIdx (b : Bullet), s.bullets.get? bIdx = some b →
      b.endPosition = b.startPosition → MoveBulletCommand.run s bIdx = none := by
    intro s bIdx b hb he
    apply bulletRun_zeroDir s bIdx b hb
    unfold Vec2.normalize?
    rw [if_pos]
    constructor
    · show b.endPosition.x - b.startPosition.x = 0
      rw [he]
      ring
    · show b.endPosition.y - b.startPosition.y = 0
      rw [he]
      ring
  refine ⟨p1, ?_, ?_, rfl, ?_⟩
  · intro s bIdx b hb hne
    have hdir : ∃ d, Vec2.normalize? (b.endPosition - b.startPosition) = some d := by
      unfold Vec2.normalize?
      rw [if_neg]
      · exact ⟨_, rfl⟩
      · rintro ⟨hx, hy⟩
        apply hne
        apply Vec2.ext'
        · have : b.endPosition.x - b.startPosition.x = 0 := hx
          linarith
        · have : b.endPosition.y - b.startPosition.y = 0 := hy
          linarith
    obtain ⟨d, hd⟩ := hdir
    simp only [MoveBulletCommand.run, hb, hd]
    split_ifs <;> try simp
    cases c : s.findLiveUnit (b.position + s.bulletSpeed • d + (⟨0.5, 0.5⟩ : Vec2)) with
    | none => simp
    | some uIdx => by_cases he : uIdx = b.unitIdx <;> simp [he]
  · have hc : ¬ (c10State.epoch
        - ({ mkUnit ⟨3, 3⟩ .alive with weaponTarget := ⟨3, 3⟩ } : Unit).lastBulletEpoch
        < c10State.bulletDelay) := by
      show ¬ ((0 : ℤ) - (-100) < 5)
      norm_num
    rw [shootRun_fire c10State 0 { mkUnit ⟨3, 3⟩ .alive with weaponTarget := ⟨3, 3⟩ }
      rfl rfl hc]
    rfl
  · have hc : ¬ (c10State.epoch
        - ({ mkUnit ⟨3, 3⟩ .alive with weaponTarget := ⟨3, 3⟩ } : Unit).lastBulletEpoch
        < c10State.bulletDelay) := by
      show ¬ ((0 : ℤ) - (-100) < 5)
      norm_num
    apply p1 _ 0 (Bullet.mkFrom 0 { mkUnit ⟨3, 3⟩ .alive with weaponTarget := ⟨3, 3⟩ })
    · rw [shootRun_fire c10State 0 { mkUnit ⟨3, 3⟩ .alive with weaponTarget := ⟨3, 3⟩ }
        rfl rfl hc]
      rfl
    · rfl

/-- Witness for C10: the bullet spawned by shooting from `c10State` has equal
endpoints and makes `MoveBulletCommand.run` fault. -/
theorem claim_C10_moveBullet_fault_witness :
    (ShootCommand.run c10State 0).bullets.get? 0
      = some (Bullet.mkFrom 0 { mkUnit ⟨3, 3⟩ .alive with weaponTarget := ⟨3, 3⟩ })
    ∧ (Bullet.mkFrom 0 { mkUnit ⟨3, 3⟩ .alive with weaponTarget := ⟨3, 3⟩ }).endPosition
      = (Bullet.mkFrom 0 { mkUnit ⟨3, 3⟩ .alive with weaponTarget := ⟨3, 3⟩ }).startPosition
    ∧ MoveBulletCommand.run (ShootCommand.run c10State 0) 0 = none := by
  have hb := claim_C10_moveBullet_fault.2.2.1
  exact ⟨hb, rfl, claim_C10_moveBullet_fault.1 (ShootCommand.run c10State 0) 0
    (Bullet.mkFrom 0 { mkUnit ⟨3, 3⟩ .alive with weaponTarget := ⟨3, 3⟩ }) hb rfl⟩

theorem moveBullet_destroy_iff (s : GameState) (bIdx : ℕ) (b : Bullet) (dir : Vec2)
    (hb : s.bullets.get? bIdx = some b) (hal : b.status = .alive)
    (hdir : Vec2.normalize? (b.endPosition - b.startPosition) = some dir) :
    ∃ s', MoveBulletCommand.run s bIdx = some s'
      ∧ ((∃ b', s'.bullets.get? bIdx = some b' ∧ b'.status = .destroyed
            ∧ b'.position = b.position)
          ↔ (¬ s.isInside (b.position + s.bulletSpeed • dir)
             ∨ arrived dir (b.position + s.bulletSpeed • dir) b.endPosition
             ∨ s.bulletRange ≤ Vec2.dist (b.position + s.bulletSpeed • dir) b.startPosition
             ∨ hitCond s b (b.position + s.bulletSpeed • dir)))
      ∧ (s'.bullets.get? bIdx
            = some { b with position := b.position + s.bulletSpeed • dir }
          ↔ ¬ (¬ s.isInside (b.position + s.bulletSpeed • dir)
             ∨ arrived dir (b.position + s.bulletSpeed • dir) b.endPosition
             ∨ s.bulletRange ≤ Vec2.dist (b.position + s.bulletSpeed • dir) b.startPosition
             ∨ hitCond s b (b.position + s.bulletSpeed • dir))) := by
  have hne_rec : ({ b with status := .destroyed } : Bullet)
      ≠ { b with position := b.position + s.bulletSpeed • dir } := by
    intro hcon
    have := congrArg Bullet.status hcon
    rw [show ({ b with status := .destroyed } : Bullet).status = .destroyed from rfl] at this
    rw [show ({ b with position := b.position + s.bulletSpeed • dir } : Bullet).status
      = b.status from rfl, hal] at this
    cases this
  by_cases h1 : s.isInside (b.position + s.bulletSpeed • dir)
  case neg =>
    refine ⟨_, bulletRun_out s bIdx b dir hb hdir h1, ?_, ?_⟩
    · exact ⟨fun _ => Or.inl h1,
        fun _ => ⟨{ b with status := .destroyed }, get?_set_same hb, rfl, rfl⟩⟩
    · constructor
      · intro hc
        have hc2 : some ({ b with status := Status.destroyed } : Bullet)
            = some { b with position := b.position + s.bulletSpeed • dir } :=
          (get?_set_same hb).symm.trans hc
        injection hc2 with hc2
        exact absurd hc2 hne_rec
      · intro hnd
        exact absurd (Or.inl h1) hnd
  case pos =>
  by_cases h2 : arrived dir (b.position + s.bulletSpeed • dir) b.endPosition
  case pos =>
    refine ⟨_, bulletRun_arrived s bIdx b dir hb hdir h1 h2, ?_, ?_⟩
    · exact ⟨fun _ => Or.inr (Or.inl h2),
        fun _ => ⟨{ b with status := .destroyed }, get?_set_same hb, rfl, rfl⟩⟩
    · constructor
      · intro hc
        have hc2 : some ({ b with status := Status.destroyed } : Bullet)
            = some { b with position := b.position + s.bulletSpeed • dir } :=
          (get?_set_same hb).symm.trans hc
        injection hc2 with hc2
        exact absurd hc2 hne_rec
      · intro hnd
        exact absurd (Or.inr (Or.inl h2)) hnd
  case neg =>
  by_cases h3 : s.bulletRange ≤ Vec2.dist (b.position + s.bulletSpeed • dir) b.startPosition
  case pos =>
    refine ⟨_, bulletRun_range s bIdx b dir hb hdir h1 h2 h3, ?_, ?_⟩
    · exact ⟨fun _ => Or.inr (Or.inr (Or.inl h3)),
        fun _ => ⟨{ b with status := .destroyed }, get?_set_same hb, rfl, rfl⟩⟩
    · constructor
      · intro hc
        have hc2 : some ({ b with status := Status.destroyed } : Bullet)
            = some { b with position := b.position + s.bulletSpeed • dir } :=
          (get?_set_same hb).symm.trans hc
        injection hc2 with hc2
        exact absurd hc2 hne_rec
      · intro hnd
        exact absurd (Or.inr (Or.inr (Or.inl h3))) hnd
  case neg =>
  cases hfind : s.findLiveUnit (b.position + s.bulletSpeed • dir + (⟨0.5, 0.5⟩ : Vec2)) with
  | some uIdx =>
    by_cases hne : uIdx ≠ b.unitIdx
    case pos =>
      obtain ⟨-, hstat⟩ := (s.findLiveUnit_eq_some_iff _ uIdx).mp hfind
      obtain ⟨u, hget, -⟩ := unitStatus_alive s uIdx hstat
      have hrun := bulletRun_hit s bIdx b dir uIdx hb hdir h1 h2 h3 hfind hne
      rw [destroyUnit_of_get? (s.setBullet bIdx { b with status := .destroyed }) uIdx u hget]
        at hrun
      refine ⟨_, hrun, ?_, ?_⟩
      · refine ⟨fun _ => Or.inr (Or.inr (Or.inr ⟨uIdx, hfind, hne⟩)), fun _ => ?_⟩
        exact ⟨{ b with status := .destroyed }, get?_set_same hb, rfl, rfl⟩
      · constructor
        · intro hc
          have hc2 : some ({ b with status := Status.destroyed } : Bullet)
              = some { b with position := b.position + s.bulletSpeed • dir } :=
            (get?_set_same hb).symm.trans hc
          injection hc2 with hc2
          exact absurd hc2 hne_rec
        · intro hnd
          exact absurd (Or.inr (Or.inr (Or.inr ⟨uIdx, hfind, hne⟩))) hnd
    case neg =>
      refine ⟨_, bulletRun_selfHit s bIdx b dir uIdx hb hdir h1 h2 h3 hfind hne,
        ?_, ?_⟩
      · constructor
        · rintro ⟨b', hb', hdes, -⟩
          have hb2 : some ({ b with position := b.position + s.bulletSpeed • dir } : Bullet)
              = some b' := (get?_set_same hb).symm.trans hb'
          injection hb2 with hb2
          rw [← hb2] at hdes
          rw [show ({ b with position := b.position + s.bulletSpeed • dir } : Bullet).status
            = b.status from rfl, hal] at hdes
          cases hdes
        · rintro (hd | hd | hd | hd)
          · exact absurd h1 hd
          · exact absurd hd h2
          · exact absurd hd h3
          · obtain ⟨w, hw, hwne⟩ := hd
            rw [hfind] at hw
            injection hw with hw
            exact absurd hw.symm (by rw [not_not] at hne; rw [hne]; exact fun hh => hwne hh)
      · constructor
        · intro _
          rintro (hd | hd | hd | hd)
          · exact absurd h1 hd
          · exact absurd hd h2
          · exact absurd hd h3
          · obtain ⟨w, hw, hwne⟩ := hd
            rw [hfind] at hw
            injection hw with hw
            rw [not_not] at hne
            exact hwne (hw.symm.trans hne)
        · intro _
          exact get?_set_same hb
  | none =>
    refine ⟨_, bulletRun_commit s bIdx b dir hb hdir h1 h2 h3 hfind, ?_, ?_⟩
    · constructor
      · rintro ⟨b', hb', hdes, -⟩
        have hb2 : some ({ b with position := b.position + s.bulletSpeed • dir } : Bullet)
            = some b' := (get?_set_same hb).symm.trans hb'
        injection hb2 with hb2
        rw [← hb2] at hdes
        rw [show ({ b with position := b.position + s.bulletSpeed • dir } : Bullet).status
          = b.status from rfl, hal] at hdes
        cases hdes
      · rintro (hd | hd | hd | hd)
        · exact absurd h1 hd
        · exact absurd hd h2
        · exact absurd hd h3
        · obtain ⟨w, hw, -⟩ := hd
          rw [hfind] at hw
          cases hw
    · constructor
      · intro _
        rintro (hd | hd | hd | hd)
        · exact absurd h1 hd
        · exact absurd hd h2
        · exact absurd hd h3
        · obtain ⟨w, hw, -⟩ := hd
          rw [hfind] at hw
          cases hw
      · intro _
        exact get?_set_same hb

/-- C1 counterexample: in `c1HitState` the advanced bullet is inside the
world, short of its target and of its range (none of the claim's three destroy
conditions holds), yet the run leaves it destroyed with its position unchanged
— because it hits a live unit, a fourth destroy case the claim's "exactly
when" omits. -/
theorem claim_C1_counterexample :
    ∃ s', MoveBulletCommand.run c1HitState 0 = some s'
      ∧ s'.bullets.get? 0 = some { c1Bullet with status := .destroyed }
      ∧ ({ c1Bullet with status := .destroyed } : Bullet).position = c1Bullet.position
      ∧ (∃ dir, Vec2.normalize? (c1Bullet.endPosition - c1Bullet.startPosition) = some dir
          ∧ c1HitState.isInside (c1Bullet.position + c1HitState.bulletSpeed • dir)
          ∧ ¬ arrived dir (c1Bullet.position + c1HitState.bulletSpeed • dir)
              c1Bullet.endPosition
          ∧ ¬ (c1HitState.bulletRange
              ≤ Vec2.dist (c1Bullet.position + c1HitState.bulletSpeed • dir)
                  c1Bullet.startPosition)) := by
  have hsub : c1Bullet.endPosition - c1Bullet.startPosition = (⟨3, 0⟩ : Vec2) := by
    apply Vec2.ext'
    · show (3:ℝ) - 0 = 3
      norm_num
    · show (0:ℝ) - 0 = 0
      norm_num
  have hdir : Vec2.normalize? (c1Bullet.endPosition - c1Bullet.startPosition)
      = some ⟨1, 0⟩ := by
    rw [hsub]
    exact normalize_axis 3 (by norm_num)
  have hnp : c1Bullet.position + c1HitState.bulletSpeed • (⟨1, 0⟩ : Vec2)
      = (⟨2, 0⟩ : Vec2) := by
    apply Vec2.ext'
    · show (1:ℝ) + 1 * 1 = 2
      norm_num
    · show (0:ℝ) + 1 * 0 = 0
      norm_num
  have hin : c1HitState.isInside (c1Bullet.position + c1HitState.bulletSpeed • (⟨1, 0⟩ : Vec2))
      := by
    rw [hnp]
    refine ⟨by norm_num, ?_, by norm_num, ?_⟩
    · show (2:ℝ) < (c1HitState.worldWidth : ℝ)
      rw [show c1HitState.worldWidth = 16 from by
        show trunc (16:ℝ) = 16
        norm_num [trunc]]
      norm_num
    · show (0:ℝ) < (c1HitState.worldHeight : ℝ)
      rw [show c1HitState.worldHeight = 10 from by
        show trunc (10:ℝ) = 10
        norm_num [trunc]]
      norm_num
  have harr : ¬ arrived ⟨1, 0⟩ (c1Bullet.position + c1HitState.bulletSpeed • (⟨1, 0⟩ : Vec2))
      c1Bullet.endPosition := by
    rw [hnp]
    rintro ⟨hx, -⟩
    rcases hx with ⟨-, h32⟩ | ⟨h10, -⟩
    · have hreal : (3:ℝ) ≤ 2 := h32
      norm_num at hreal
    · have hreal : (1:ℝ) < 0 := h10
      norm_num at hreal
  have hrange : ¬ (c1HitState.bulletRange
      ≤ Vec2.dist (c1Bullet.position + c1HitState.bulletSpeed • (⟨1, 0⟩ : Vec2))
          c1Bullet.startPosition) := by
    rw [hnp]
    intro hr
    have hreal : (4:ℝ) ≤ Vec2.dist ⟨2, 0⟩ ⟨0, 0⟩ := hr
    rw [dist_along_x 2 0 0] at hreal
    norm_num at hreal
  have t5 : trunc (5:ℝ) = 5 := by norm_num [trunc]
  have t25 : trunc (2.5:ℝ) = 2 := by norm_num [trunc]
  have t05 : trunc (0.5:ℝ) = 0 := by norm_num [trunc]
  have t2 : trunc (2:ℝ) = 2 := by norm_num [trunc]
  have t0 : trunc (0:ℝ) = 0 := by norm_num [trunc]
  have hcell1 : (mkUnit ⟨5, 5⟩ .alive).position.cell ≠ (Vec2.mk 2.5 0.5).cell := by
    show (Vec2.mk 5 5).cell ≠ (Vec2.mk 2.5 0.5).cell
    unfold Vec2.cell
    rw [t5, t25, t05]
    intro hp
    injection hp with hp1 hp2
    exact absurd hp1 (by norm_num)
  have hcell2 : (mkUnit ⟨2, 0⟩ .alive).position.cell = (Vec2.mk 2.5 0.5).cell := by
    show (Vec2.mk 2 0).cell = (Vec2.mk 2.5 0.5).cell
    unfold Vec2.cell
    rw [t2, t0, t25, t05]
  have hfu : c1HitState.findUnit ⟨2.5, 0.5⟩ = some 1 := by
    show findUnitAux ⟨2.5, 0.5⟩ [mkUnit ⟨5, 5⟩ .alive, mkUnit ⟨2, 0⟩ .alive] 0 = some 1
    rw [findUnitAux, if_neg hcell1, findUnitAux, if_pos hcell2]
  have hflu : c1HitState.findLiveUnit ⟨2.5, 0.5⟩ = some 1 := by
    show (match c1HitState.findUnit ⟨2.5, 0.5⟩ with
      | none => none
      | some i => if c1HitState.unitStatus i = some .alive then some i else none) = some 1
    rw [hfu]
    show (if c1HitState.unitStatus 1 = some .alive then some 1 else none) = some 1
    rw [if_pos (show c1HitState.unitStatus 1 = some Status.alive from rfl)]
  have hfind : c1HitState.findLiveUnit
      (c1Bullet.position + c1HitState.bulletSpeed • (⟨1, 0⟩ : Vec2) + (⟨0.5, 0.5⟩ : Vec2))
      = some 1 := by
    rw [show c1Bullet.position + c1HitState.bulletSpeed • (⟨1, 0⟩ : Vec2) + (⟨0.5, 0.5⟩ : Vec2)
        = (⟨2.5, 0.5⟩ : Vec2) from by
      apply Vec2.ext'
      · show (1:ℝ) + 1 * 1 + 0.5 = 2.5
        norm_num
      · show (0:ℝ) + 1 * 0 + 0.5 = 0.5
        norm_num]
    exact hflu
  have hrun := bulletRun_hit c1HitState 0 c1Bullet ⟨1, 0⟩ 1 rfl hdir hin harr
    hrange hfind (by show (1:ℕ) ≠ 0; norm_num)
  rw [destroyUnit_of_get? (c1HitState.setBullet 0 { c1Bullet with status := .destroyed }) 1
    (mkUnit ⟨2, 0⟩ .alive) rfl] at hrun
  refine ⟨_, hrun, ?_, rfl, ⟨⟨1, 0⟩, hdir, hin, harr, hrange⟩⟩
  exact get?_set_same (rfl : c1HitState.bullets.get? 0 = some c1Bullet)

/-- C1 (amended): every live bullet with a well-defined direction advances by
`bulletSpeed * normalize(endPosition - startPosition)`; it ends destroyed with
its position unchanged exactly when, in source order, (1) the advanced
position is outside the world, (2) it has crossed or reached `endPosition`
along the direction's sign on both axes, (3) the distance from
`startPosition` is at least `bulletRange`, or — the case the original claim's
"exactly when" omits — (4) a live non-firing unit sits at the cell-centre
sample of the advanced position; otherwise the advanced position is
committed.  The bullet spawned at `(2,2)` aimed at `(6,2)` with speed 0.1 and
range 4 is destroyed exactly on the tick its traveled distance reaches 4. -/
theorem claim_C1_moveBullet :
    (∀ (s : GameState) (bIdx : ℕ) (b : Bullet) (dir : Vec2),
      s.bullets.get? bIdx = some b → b.status = .alive →
      Vec2.normalize? (b.endPosition - b.startPosition) = some dir →
      ∃ s', MoveBulletCommand.run s bIdx = some s'
        ∧ ((∃ b', s'.bullets.get? bIdx = some b' ∧ b'.status = .destroyed
              ∧ b'.position = b.position)
            ↔ (¬ s.isInside (b.position + s.bulletSpeed • dir)
               ∨ arrived dir (b.position + s.bulletSpeed • dir) b.endPosition
               ∨ s.bulletRange ≤ Vec2.dist (b.position + s.bulletSpeed • dir) b.startPosition
               ∨ hitCond s b (b.position + s.bulletSpeed • dir)))
        ∧ (s'.bullets.get? bIdx = some { b with position := b.position + s.bulletSpeed • dir }
            ↔ ¬ (¬ s.isInside (b.position + s.bulletSpeed • dir)
               ∨ arrived dir (b.position + s.bulletSpeed • dir) b.endPosition
               ∨ s.bulletRange ≤ Vec2.dist (b.position + s.bulletSpeed • dir) b.startPosition
               ∨ hitCond s b (b.position + s.bulletSpeed • dir))))
    ∧ (∀ x : ℝ, 2 ≤ x →
        ∃ s', MoveBulletCommand.run (c1ExState x) 0 = some s'
          ∧ ((∃ b', s'.bullets.get? 0 = some b' ∧ b'.status = .destroyed
                ∧ b'.position = (c1ExBullet x).position)
              ↔ 4 ≤ x + 0.1 - 2)) := by
  refine ⟨fun s bIdx b dir hb hal hdir => moveBullet_destroy_iff s bIdx b dir hb hal hdir, ?_⟩
  intro x hx
  have hsub : (c1ExBullet x).endPosition - (c1ExBullet x).startPosition = (⟨4, 0⟩ : Vec2) := by
    apply Vec2.ext'
    · show (6:ℝ) - 2 = 4
      norm_num
    · show (2:ℝ) - 2 = 0
      norm_num
  have hdir : Vec2.normalize? ((c1ExBullet x).endPosition - (c1ExBullet x).startPosition)
      = some ⟨1, 0⟩ := by
    rw [hsub]
    exact normalize_axis 4 (by norm_num)
  obtain ⟨s', hrun, hiff, -⟩ :=
    moveBullet_destroy_iff (c1ExState x) 0 (c1ExBullet x) ⟨1, 0⟩ rfl rfl hdir
  refine ⟨s', hrun, ?_⟩
  rw [hiff]
  have hnp : (c1ExBullet x).position + (c1ExState x).bulletSpeed • (⟨1, 0⟩ : Vec2)
      = (⟨x + 0.1, 2⟩ : Vec2) := by
    apply Vec2.ext'
    · show x + 0.1 * 1 = x + 0.1
      ring
    · show (2:ℝ) + 0.1 * 0 = 2
      norm_num
  rw [hnp]
  constructor
  · rintro (hout | harr | hrange | hhit)
    · by_cases hlt : (x + 0.1 : ℝ) < 16
      · exfalso
        apply hout
        refine ⟨by show (0:ℝ) ≤ x + 0.1; linarith, ?_, by show (0:ℝ) ≤ 2; norm_num, ?_⟩
        · show (x + 0.1 : ℝ) < ((c1ExState x).worldWidth : ℝ)
          rw [show (c1ExState x).worldWidth = 16 from by
            show trunc (16:ℝ) = 16
            norm_num [trunc]]
          push_cast
          linarith
        · show (2:ℝ) < ((c1ExState x).worldHeight : ℝ)
          rw [show (c1ExState x).worldHeight = 10 from by
            show trunc (10:ℝ) = 10
            norm_num [trunc]]
          norm_num
      · have h16 : (16:ℝ) ≤ x + 0.1 := not_lt.mp hlt
        linarith
    · obtain ⟨hxax, -⟩ := harr
      rcases hxax with ⟨-, h6⟩ | ⟨h10, -⟩
      · have h6' : (6:ℝ) ≤ x + 0.1 := h6
        linarith
      · have h10' : (1:ℝ) < 0 := h10
        norm_num at h10'
    · have hd : Vec2.dist ⟨x + 0.1, 2⟩ ((c1ExBullet x).startPosition) = |x + 0.1 - 2| :=
        dist_along_x (x + 0.1) 2 2
      rw [hd] at hrange
      have h4 : (4:ℝ) ≤ |x + 0.1 - 2| := hrange
      rcases abs_cases (x + 0.1 - 2 : ℝ) with ⟨heq, -⟩ | ⟨-, hneg⟩
      · rw [heq] at h4
        exact h4
      · linarith
    · obtain ⟨uIdx, hfl, hune⟩ := hhit
      obtain ⟨hfu, -⟩ := ((c1ExState x).findLiveUnit_eq_some_iff _ uIdx).mp hfl
      obtain ⟨u, hget, -, -⟩ := ((c1ExState x).findUnit_eq_some_iff _ uIdx).mp hfu
      rcases List.get?_eq_some.mp hget with ⟨hlt, -⟩
      have hlt1 : uIdx < 1 := hlt
      have h0 : uIdx = 0 := by omega
      exact absurd h0 hune
  · intro h4
    right
    left
    constructor
    · left
      exact ⟨by show (0:ℝ) ≤ 1; norm_num, by show (6:ℝ) ≤ x + 0.1; linarith⟩
    · left
      exact ⟨by show (0:ℝ) ≤ 0; norm_num, by show (2:ℝ) ≤ 2; norm_num⟩

/-- Witness for C1 at `x = 5.9`: the next advance reaches traveled distance 4
and the bullet is destroyed on that tick. -/
theorem claim_C1_moveBullet_witness :
    (2:ℝ) ≤ 5.9 ∧
      (∃ s', MoveBulletCommand.run (c1ExState 5.9) 0 = some s'
        ∧ ((∃ b', s'.bullets.get? 0 = some b' ∧ b'.status = .destroyed
              ∧ b'.position = (c1ExBullet 5.9).position)
            ↔ 4 ≤ (5.9:ℝ) + 0.1 - 2)) :=
  ⟨by norm_num, claim_C1_moveBullet.2 5.9 (by norm_num)⟩

/-- C2 counterexample: in `c2State` the bullet advances into cell `(2,0)`
where a destroyed unit precedes a live unit.  The first *live* unit at the
sampled position exists (index 1, per the spec-side `specFirstLiveUnitAt`) and
is not the firing unit (index 2), so the claim demands that both bullet and
unit be destroyed; the source instead finds no unit (`findLiveUnit` is `none`
because the first unit at the cell is destroyed), commits the advanced
position, and notifies nobody. -/
theorem claim_C2_counterexample :
    specFirstLiveUnitAt c2State
        (c2Bullet.position + c2State.bulletSpeed • (⟨1, 0⟩ : Vec2) + (⟨0.5, 0.5⟩ : Vec2))
      = some 1
    ∧ (1:ℕ) ≠ c2Bullet.unitIdx
    ∧ Vec2.normalize? (c2Bullet.endPosition - c2Bullet.startPosition) = some ⟨1, 0⟩
    ∧ (∃ s', MoveBulletCommand.run c2State 0 = some s'
        ∧ s'.bullets.get? 0 = some { c2Bullet with
            position := c2Bullet.position + c2State.bulletSpeed • (⟨1, 0⟩ : Vec2) }
        ∧ s'.units.get? 1 = some (mkUnit ⟨2, 0⟩ .alive)
        ∧ s'.destroyedLog = []) := by
  have hsub : c2Bullet.endPosition - c2Bullet.startPosition = (⟨3, 0⟩ : Vec2) := by
    apply Vec2.ext'
    · show (3:ℝ) - 0 = 3
      norm_num
    · show (0:ℝ) - 0 = 0
      norm_num
  have hdir : Vec2.normalize? (c2Bullet.endPosition - c2Bullet.startPosition)
      = some ⟨1, 0⟩ := by
    rw [hsub]
    exact normalize_axis 3 (by norm_num)
  have hcenter : c2Bullet.position + c2State.bulletSpeed • (⟨1, 0⟩ : Vec2) + (⟨0.5, 0.5⟩ : Vec2)
      = (⟨2.5, 0.5⟩ : Vec2) := by
    apply Vec2.ext'
    · show (1:ℝ) + 1 * 1 + 0.5 = 2.5
      norm_num
    · show (0:ℝ) + 1 * 0 + 0.5 = 0.5
      norm_num
  have t25 : trunc (2.5:ℝ) = 2 := by norm_num [trunc]
  have t05 : trunc (0.5:ℝ) = 0 := by norm_num [trunc]
  have t2 : trunc (2:ℝ) = 2 := by norm_num [trunc]
  have t0 : trunc (0:ℝ) = 0 := by norm_num [trunc]
  have hcellm : (Vec2.mk 2 0).cell = (Vec2.mk 2.5 0.5).cell := by
    unfold Vec2.cell
    rw [t2, t0, t25, t05]
  have hspec : specFirstLiveUnitAt c2State ⟨2.5, 0.5⟩ = some 1 := by
    show specFirstLiveUnitAtAux ⟨2.5, 0.5⟩
      [mkUnit ⟨2, 0⟩ .destroyed, mkUnit ⟨2, 0⟩ .alive, mkUnit ⟨0, 0⟩ .alive] 0 = some 1
    rw [specFirstLiveUnitAtAux, if_neg, specFirstLiveUnitAtAux, if_pos]
    · exact ⟨hcellm, rfl⟩
    · rintro ⟨-, hst⟩
      exact absurd hst (by decide)
  have hfu : c2State.findUnit ⟨2.5, 0.5⟩ = some 0 := by
    show findUnitAux ⟨2.5, 0.5⟩
      [mkUnit ⟨2, 0⟩ .destroyed, mkUnit ⟨2, 0⟩ .alive, mkUnit ⟨0, 0⟩ .alive] 0 = some 0
    rw [findUnitAux, if_pos]
    exact hcellm
  have hflu : c2State.findLiveUnit ⟨2.5, 0.5⟩ = none := by
    show (match c2State.findUnit ⟨2.5, 0.5⟩ with
      | none => none
      | some i => if c2State.unitStatus i = some .alive then some i else none) = none
    rw [hfu]
    show (if c2State.unitStatus 0 = some .alive then some 0 else none) = none
    rw [if_neg]
    intro hcon
    exact absurd hcon (by decide)
  have hin : c2State.isInside (c2Bullet.position + c2State.bulletSpeed • (⟨1, 0⟩ : Vec2)) := by
    rw [show c2Bullet.position + c2State.bulletSpeed • (⟨1, 0⟩ : Vec2) = (⟨2, 0⟩ : Vec2) from by
      apply Vec2.ext'
      · show (1:ℝ) + 1 * 1 = 2
        norm_num
      · show (0:ℝ) + 1 * 0 = 0
        norm_num]
    refine ⟨by norm_num, ?_, by norm_num, ?_⟩
    · show (2:ℝ) < (c2State.worldWidth : ℝ)
      rw [show c2State.worldWidth = 16 from by
        show trunc (16:ℝ) = 16
        norm_num [trunc]]
      norm_num
    · show (0:ℝ) < (c2State.worldHeight : ℝ)
      rw [show c2State.worldHeight = 10 from by
        show trunc (10:ℝ) = 10
        norm_num [trunc]]
      norm_num
  have harr : ¬ arrived ⟨1, 0⟩ (c2Bullet.position + c2State.bulletSpeed • (⟨1, 0⟩ : Vec2))
      c2Bullet.endPosition := by
    rintro ⟨hx, -⟩
    rcases hx with ⟨-, h32⟩ | ⟨h10, -⟩
    · have hreal : (3:ℝ) ≤ 1 + 1 * 1 := h32
      norm_num at hreal
    · have hreal : (1:ℝ) < 0 := h10
      norm_num at hreal
  have hrange : ¬ (c2State.bulletRange
      ≤ Vec2.dist (c2Bullet.position + c2State.bulletSpeed • (⟨1, 0⟩ : Vec2))
          c2Bullet.startPosition) := by
    rw [show c2Bullet.position + c2State.bulletSpeed • (⟨1, 0⟩ : Vec2) = (⟨2, 0⟩ : Vec2) from by
      apply Vec2.ext'
      · show (1:ℝ) + 1 * 1 = 2
        norm_num
      · show (0:ℝ) + 1 * 0 = 0
        norm_num]
    intro hr
    have hreal : (4:ℝ) ≤ Vec2.dist ⟨2, 0⟩ ⟨0, 0⟩ := hr
    rw [dist_along_x 2 0 0] at hreal
    norm_num at hreal
  have hfind : c2State.findLiveUnit
      (c2Bullet.position + c2State.bulletSpeed • (⟨1, 0⟩ : Vec2) + (⟨0.5, 0.5⟩ : Vec2))
      = none := by
    rw [hcenter]
    exact hflu
  have hrun := bulletRun_commit c2State 0 c2Bullet ⟨1, 0⟩ rfl hdir hin harr
    hrange hfind
  refine ⟨by rw [hcenter]; exact hspec, by show (1:ℕ) ≠ 2; norm_num, hdir,
    _, hrun, ?_, rfl, rfl⟩
  exact get?_set_same (rfl : c2State.bullets.get? 0 = some c2Bullet)

/-- C2 (amended): when the advanced bullet survives the boundary, arrival and
range checks and `findLiveUnit` at the cell-centre sample returns a unit (the
first unit at that cell, only if alive) distinct from the firing unit, then
the bullet and that unit both become destroyed, the bullet's position is not
updated, one destruction broadcast is appended, and every registered observer
is called synchronously in registration order, exactly once per observer (for
a duplicate-free registry); moreover over any run of tick commands each
unit's destruction broadcast fires at most once and never while it is alive. -/
theorem claim_C2_moveBullet_hit :
    (∀ (s : GameState) (bIdx : ℕ) (b : Bullet) (dir : Vec2) (uIdx : ℕ),
      s.bullets.get? bIdx = some b →
      Vec2.normalize? (b.endPosition - b.startPosition) = some dir →
      s.isInside (b.position + s.bulletSpeed • dir) →
      ¬ arrived dir (b.position + s.bulletSpeed • dir) b.endPosition →
      ¬ (s.bulletRange ≤ Vec2.dist (b.position + s.bulletSpeed • dir) b.startPosition) →
      s.findLiveUnit (b.position + s.bulletSpeed • dir + (⟨0.5, 0.5⟩ : Vec2)) = some uIdx →
      uIdx ≠ b.unitIdx →
      ∃ s' u, MoveBulletCommand.run s bIdx = some s'
        ∧ s.units.get? uIdx = some u ∧ u.status = .alive
        ∧ s'.bullets.get? bIdx = some { b with status := .destroyed }
        ∧ s'.units.get? uIdx = some { u with status := .destroyed }
        ∧ s'.destroyedLog = s.destroyedLog ++ [uIdx]
        ∧ s'.observerCalls = s.observerCalls ++ s.observers.map (fun o => (o, uIdx))
        ∧ (s.observers.Nodup → ∀ o ∈ s.observers,
            @List.count (ℕ × ℕ) instBEqOfDecidableEq (o, uIdx)
              (s.observers.map (fun o => (o, uIdx))) = 1))
    ∧ (∀ (cmds : List Cmd) (s s' : GameState),
        Cmd.deleteDestroyed ListSel.units ∉ cmds →
        execAll cmds s = some s' → NotifyOnce s → NotifyOnce s') := by
  refine ⟨?_, execAll_notifyOnce⟩
  intro s bIdx b dir uIdx hb hdir h1 h2 h3 hfind hne
  obtain ⟨-, hstat⟩ := (s.findLiveUnit_eq_some_iff _ uIdx).mp hfind
  obtain ⟨u, hget, halive⟩ := unitStatus_alive s uIdx hstat
  have hrun := bulletRun_hit s bIdx b dir uIdx hb hdir h1 h2 h3 hfind hne
  rw [destroyUnit_of_get? (s.setBullet bIdx { b with status := .destroyed }) uIdx u hget]
    at hrun
  refine ⟨_, u, hrun, hget, halive, ?_, ?_, rfl, rfl, ?_⟩
  · exact get?_set_same hb
  · exact get?_set_same hget
  · intro hnodup o ho
    have hinj : Function.Injective (fun o' : ℕ => ((o', uIdx) : ℕ × ℕ)) := by
      intro a b hab
      exact (Prod.ext_iff.mp hab).1
    have hcnt := List.count_map_of_injective s.observers
      (fun o' : ℕ => ((o', uIdx) : ℕ × ℕ)) hinj o
    exact hcnt.trans (List.count_eq_one_of_mem hnodup ho)

/-- Witness for C2 at `c2HitState`: the bullet hits the live unit at index 1
and both are destroyed, with one broadcast delivered to both observers. -/
theorem claim_C2_moveBullet_hit_witness :
    c2HitState.bullets.get? 0 = some c1Bullet
    ∧ c2HitState.findLiveUnit
        (c1Bullet.position + c2HitState.bulletSpeed • (⟨1, 0⟩ : Vec2) + (⟨0.5, 0.5⟩ : Vec2))
        = some 1
    ∧ (∃ s' u, MoveBulletCommand.run c2HitState 0 = some s'
        ∧ c2HitState.units.get? 1 = some u ∧ u.status = .alive
        ∧ s'.bullets.get? 0 = some { c1Bullet with status := .destroyed }
        ∧ s'.units.get? 1 = some { u with status := .destroyed }
        ∧ s'.destroyedLog = c2HitState.destroyedLog ++ [1]
        ∧ s'.observerCalls = c2HitState.observerCalls
            ++ c2HitState.observers.map (fun o => (o, 1))
        ∧ (c2HitState.observers.Nodup → ∀ o ∈ c2HitState.observers,
            @List.count (ℕ × ℕ) instBEqOfDecidableEq (o, 1)
              (c2HitState.observers.map (fun o => (o, 1))) = 1)) := by
  have hsub : c1Bullet.endPosition - c1Bullet.startPosition = (⟨3, 0⟩ : Vec2) := by
    apply Vec2.ext'
    · show (3:ℝ) - 0 = 3
      norm_num
    · show (0:ℝ) - 0 = 0
      norm_num
  have hdir : Vec2.normalize? (c1Bullet.endPosition - c1Bullet.startPosition)
      = some ⟨1, 0⟩ := by
    rw [hsub]
    exact normalize_axis 3 (by norm_num)
  have hnp : c1Bullet.position + c2HitState.bulletSpeed • (⟨1, 0⟩ : Vec2)
      = (⟨2, 0⟩ : Vec2) := by
    apply Vec2.ext'
    · show (1:ℝ) + 1 * 1 = 2
      norm_num
    · show (0:ℝ) + 1 * 0 = 0
      norm_num
  have hin : c2HitState.isInside
      (c1Bullet.position + c2HitState.bulletSpeed • (⟨1, 0⟩ : Vec2)) := by
    rw [hnp]
    refine ⟨by norm_num, ?_, by norm_num, ?_⟩
    · show (2:ℝ) < (c2HitState.worldWidth : ℝ)
      rw [show c2HitState.worldWidth = 16 from by
        show trunc (16:ℝ) = 16
        norm_num [trunc]]
      norm_num
    · show (0:ℝ) < (c2HitState.worldHeight : ℝ)
      rw [show c2HitState.worldHeight = 10 from by
        show trunc (10:ℝ) = 10
        norm_num [trunc]]
      norm_num
  have harr : ¬ arrived ⟨1, 0⟩
      (c1Bullet.position + c2HitState.bulletSpeed • (⟨1, 0⟩ : Vec2)) c1Bullet.endPosition := by
    rw [hnp]
    rintro ⟨hx, -⟩
    rcases hx with ⟨-, h32⟩ | ⟨h10, -⟩
    · have hreal : (3:ℝ) ≤ 2 := h32
      norm_num at hreal
    · have hreal : (1:ℝ) < 0 := h10
      norm_num at hreal
  have hrange : ¬ (c2HitState.bulletRange
      ≤ Vec2.dist (c1Bullet.position + c2HitState.bulletSpeed • (⟨1, 0⟩ : Vec2))
          c1Bullet.startPosition) := by
    rw [hnp]
    intro hr
    have hreal : (4:ℝ) ≤ Vec2.dist ⟨2, 0⟩ ⟨0, 0⟩ := hr
    rw [dist_along_x 2 0 0] at hreal
    norm_num at hreal
  have t5 : trunc (5:ℝ) = 5 := by norm_num [trunc]
  have t25 : trunc (2.5:ℝ) = 2 := by norm_num [trunc]
  have t05 : trunc (0.5:ℝ) = 0 := by norm_num [trunc]
  have t2 : trunc (2:ℝ) = 2 := by norm_num [trunc]
  have t0 : trunc (0:ℝ) = 0 := by norm_num [trunc]
  have hcell1 : (mkUnit ⟨5, 5⟩ .alive).position.cell ≠ (Vec2.mk 2.5 0.5).cell := by
    show (Vec2.mk 5 5).cell ≠ (Vec2.mk 2.5 0.5).cell
    unfold Vec2.cell
    rw [t5, t25, t05]
    intro hp
    injection hp with hp1 hp2
    exact absurd hp1 (by norm_num)
  have hcell2 : (mkUnit ⟨2, 0⟩ .alive).position.cell = (Vec2.mk 2.5 0.5).cell := by
    show (Vec2.mk 2 0).cell = (Vec2.mk 2.5 0.5).cell
    unfold Vec2.cell
    rw [t2, t0, t25, t05]
  have hfu : c2HitState.findUnit ⟨2.5, 0.5⟩ = some 1 := by
    show findUnitAux ⟨2.5, 0.5⟩ [mkUnit ⟨5, 5⟩ .alive, mkUnit ⟨2, 0⟩ .alive] 0 = some 1
    rw [findUnitAux, if_neg hcell1, findUnitAux, if_pos hcell2]
  have hflu : c2HitState.findLiveUnit ⟨2.5, 0.5⟩ = some 1 := by
    show (match c2HitState.findUnit ⟨2.5, 0.5⟩ with
      | none => none
      | some i => if c2HitState.unitStatus i = some .alive then some i else none) = some 1
    rw [hfu]
    show (if c2HitState.unitStatus 1 = some .alive then some 1 else none) = some 1
    rw [if_pos (show c2HitState.unitStatus 1 = some Status.alive from rfl)]
  have hfind : c2HitState.findLiveUnit
      (c1Bullet.position + c2HitState.bulletSpeed • (⟨1, 0⟩ : Vec2) + (⟨0.5, 0.5⟩ : Vec2))
      = some 1 := by
    rw [show c1Bullet.position + c2HitState.bulletSpeed • (⟨1, 0⟩ : Vec2) + (⟨0.5, 0.5⟩ : Vec2)
        = (⟨2.5, 0.5⟩ : Vec2) from by
      apply Vec2.ext'
      · show (1:ℝ) + 1 * 1 + 0.5 = 2.5
        norm_num
      · show (0:ℝ) + 1 * 0 + 0.5 = 0.5
        norm_num]
    exact hflu
  exact ⟨rfl, hfind, claim_C2_moveBullet_hit.1 c2HitState 0 c1Bullet ⟨1, 0⟩ 1 rfl hdir hin
    harr hrange hfind (by show (1:ℕ) ≠ 0; norm_num)⟩

/-- C8: `DeleteDestroyedCommand` replaces the list's contents with exactly the
alive items, preserving their relative order (a 5-bullet list with indices 1
and 3 destroyed becomes the list of former indices 0, 2, 4); the per-tick
command queue applies it only to the bullet list, and no tick-generated
command sequence ever removes a unit from the unit list — only statuses
flip. -/
theorem claim_C8_deleteDestroyed :
    (∀ l : List Bullet, List.Sublist (deleteDestroyedList Bullet.status l) l
      ∧ (∀ b : Bullet, b ∈ deleteDestroyedList Bullet.status l ↔ b ∈ l ∧ b.status = .alive))
    ∧ (∀ b0 b1 b2 b3 b4 : Bullet, b0.status = .alive → b1.status = .destroyed →
        b2.status = .alive → b3.status = .destroyed → b4.status = .alive →
        deleteDestroyedList Bullet.status [b0, b1, b2, b3, b4] = [b0, b2, b4])
    ∧ (∀ (gameOver : Bool) (playerIdx : ℕ) (inp : TickInput) (s : GameState),
        Cmd.deleteDestroyed ListSel.units ∉ buildTickCommands gameOver playerIdx inp s
        ∧ (gameOver = false →
            Cmd.deleteDestroyed ListSel.bullets ∈ buildTickCommands gameOver playerIdx inp s))
    ∧ (∀ (cmds : List Cmd) (s s' : GameState),
        Cmd.deleteDestroyed ListSel.units ∉ cmds →
        execAll cmds s = some s' → s'.units.length = s.units.length) := by
  refine ⟨?_, ?_, ?_, execAll_units_length⟩
  · intro l
    refine ⟨List.filter_sublist l, ?_⟩
    intro b
    rw [deleteDestroyedList, List.mem_filter]
    simp
  · intro b0 b1 b2 b3 b4 h0 h1 h2 h3 h4
    simp [deleteDestroyedList, List.filter, h0, h1, h2, h3, h4]
  · intro gameOver playerIdx inp s
    constructor
    · intro hmem
      cases gameOver with
      | true => simp [buildTickCommands] at hmem
      | false =>
        unfold buildTickCommands at hmem
        rw [if_neg (by simp)] at hmem
        rcases List.mem_append.mp hmem with hmem | hmem
        case inr => simp at hmem
        rcases List.mem_append.mp hmem with hmem | hmem
        case inr =>
          rw [List.mem_map] at hmem
          obtain ⟨n, -, hn⟩ := hmem
          simp at hn
        rcases List.mem_append.mp hmem with hmem | hmem
        case inr =>
          simp only [aiCommands, List.mem_flatMap] at hmem
          obtain ⟨p, -, hp⟩ := hmem
          by_cases hpi : p.1 = playerIdx
          · rw [if_pos hpi] at hp
            simp at hp
          · rw [if_neg hpi] at hp
            rcases List.mem_cons.mp hp with hp | hp
            · simp at hp
            · by_cases hd : Vec2.dist p.2.position
                (((s.units.get? playerIdx).map Unit.position).getD ⟨0, 0⟩) ≤ s.bulletRange
              · rw [if_pos hd] at hp
                simp at hp
              · rw [if_neg hd] at hp
                simp at hp
        rcases List.mem_append.mp hmem with hmem | hmem
        case inr =>
          by_cases hcl : inp.mouseClicked = true
          · rw [if_pos hcl] at hmem
            simp at hmem
          · rw [if_neg hcl] at hmem
            simp at hmem
        rcases List.mem_append.mp hmem with hmem | hmem
        · by_cases hmv : inp.moveVector.x ≠ 0 ∨ inp.moveVector.y ≠ 0
          · rw [if_pos hmv] at hmem
            simp at hmem
          · rw [if_neg hmv] at hmem
            simp at hmem
        · simp at hmem
    · intro hgo
      cases gameOver with
      | true => simp at hgo
      | false =>
        unfold buildTickCommands
        rw [if_neg (by simp)]
        exact List.mem_append.mpr (Or.inr (List.mem_singleton.mpr rfl))

/-- Witness for C8: the 5-bullet example with indices 1 and 3 destroyed. -/
theorem claim_C8_deleteDestroyed_witness :
    c1Bullet.status = .alive
    ∧ ({ c1Bullet with status := .destroyed } : Bullet).status = .destroyed
    ∧ deleteDestroyedList Bullet.status
        [c1Bullet, { c1Bullet with status := .destroyed }, c1Bullet,
         { c1Bullet with status := .destroyed }, c1Bullet]
      = [c1Bullet, c1Bullet, c1Bullet] :=
  ⟨rfl, rfl, claim_C8_deleteDestroyed.2.1 c1Bullet { c1Bullet with status := .destroyed }
    c1Bullet { c1Bullet with status := .destroyed } c1Bullet rfl rfl rfl rfl rfl⟩

/-- C5 counterexample: loading `overlapMap` succeeds and yields a reachable
state (zero further ticks) in which two distinct live units — one from the
tanks layer, one from the towers layer — occupy the same grid cell, so the
claimed invariant fails already at load time. -/
theorem claim_C5_counterexample :
    ∃ g, UserInterface.loadLevel none "level1.tmx" overlapMap = (some g, none)
      ∧ execAll [] g = some g
      ∧ ¬ Occ g := by
  refine ⟨_, rfl, rfl, ?_⟩
  intro hocc
  exact hocc 0 1 _ _ rfl rfl (by norm_num) rfl rfl rfl

/-- C5 (amended): single-occupancy of live units is preserved by every
tick-generated command sequence (ticks never delete from the unit list):
`MoveCommand` rejects moves into any occupied cell and no other command moves
a unit; a successful level load, however, does not itself establish the
invariant, since the tanks layer and towers layer may stack units on the same
cell. -/
theorem claim_C5_occupancy (cmds : List Cmd) (s s' : GameState)
    (hcmds : Cmd.deleteDestroyed ListSel.units ∉ cmds)
    (h : execAll cmds s = some s') (inv : Occ s) : Occ s' :=
  execAll_occ cmds s s' hcmds h inv

/-- Witness for C5: one move command from the initial single-unit state. -/
theorem claim_C5_occupancy_witness :
    (Cmd.deleteDestroyed ListSel.units ∉ [Cmd.move 0 (⟨0, 1⟩ : Vec2)])
    ∧ execAll [Cmd.move 0 ⟨0, 1⟩] GameState.init
        = some (MoveCommand.run GameState.init 0 ⟨0, 1⟩)
    ∧ Occ GameState.init
    ∧ Occ (MoveCommand.run GameState.init 0 ⟨0, 1⟩) := by
  have hnotin : Cmd.deleteDestroyed ListSel.units ∉ [Cmd.move 0 (⟨0, 1⟩ : Vec2)] := by
    simp
  have hocc : Occ GameState.init := by
    intro i j ui uj hi hj hij _ _
    rcases List.get?_eq_some.mp hi with ⟨hi1, -⟩
    rcases List.get?_eq_some.mp hj with ⟨hj1, -⟩
    have hi2 : i < 1 := hi1
    have hj2 : j < 1 := hj1
    omega
  exact ⟨hnotin, rfl, hocc,
    claim_C5_occupancy [Cmd.move 0 ⟨0, 1⟩] GameState.init _ hnotin rfl hocc⟩

/-- C7 counterexample: loading `failMap` (valid ground layer, walls layer with
the wrong tile count) reports an error naming the file and defect, but the
`GameState` has already been partially mutated (`worldSize` is replaced before
the failing check), and `UserInterface.loadLevel` then discards the play mode
entirely — the previously valid state is not left undisturbed. -/
theorem claim_C7_counterexample :
    (LoadLevelCommand.run "level1.tmx" failMap GameState.init).2
      = some "Error in level1.tmx: invalid tiles count"
    ∧ (LoadLevelCommand.run "level1.tmx" failMap GameState.init).1.worldSize
      ≠ GameState.init.worldSize
    ∧ UserInterface.loadLevel (some GameState.init) "level1.tmx" failMap
      = (none, some "Error in level1.tmx: invalid tiles count") := by
  refine ⟨rfl, ?_, rfl⟩
  intro h
  rw [show (LoadLevelCommand.run "level1.tmx" failMap GameState.init).1.worldSize
      = (⟨((1:ℕ):ℝ), ((1:ℕ):ℝ)⟩ : Vec2) from rfl,
    show GameState.init.worldSize = (⟨16, 10⟩ : Vec2) from rfl] at h
  injection h with h1 h2
  norm_num at h1

/-- C7 (amended): a load failure is reported with the offending file and
defect, but the shared `GameState` keeps every mutation applied before the
failing check, and `UserInterface.loadLevel` reacts to any failure by
discarding the play mode: the system ends in the no-active-game state even
when a previous playable state existed.  A successful load installs the
loaded state. -/
theorem claim_C7_loadLevel (prev : Option GameState) (fileName : String)
    (tileMap : TmxTileMap) :
    (∀ g' e, LoadLevelCommand.run fileName tileMap (prev.getD GameState.init) = (g', some e) →
      UserInterface.loadLevel prev fileName tileMap = (none, some e))
    ∧ (∀ g', LoadLevelCommand.run fileName tileMap (prev.getD GameState.init) = (g', none) →
      UserInterface.loadLevel prev fileName tileMap
        = (some { g' with epoch := g'.epoch + 1 }, none)) := by
  constructor
  · intro g' e h
    simp only [UserInterface.loadLevel, h]
  · intro g' h
    simp only [UserInterface.loadLevel, h]

/-- Witness for C7 at the failing map. -/
theorem claim_C7_loadLevel_witness :
    LoadLevelCommand.run "level1.tmx" failMap ((some GameState.init).getD GameState.init)
      = ((LoadLevelCommand.run "level1.tmx" failMap GameState.init).1,
         some "Error in level1.tmx: invalid tiles count")
    ∧ UserInterface.loadLevel (some GameState.init) "level1.tmx" failMap
      = (none, some "Error in level1.tmx: invalid tiles count") :=
  ⟨rfl, (claim_C7_loadLevel (some GameState.init) "level1.tmx" failMap).1
    (LoadLevelCommand.run "level1.tmx" failMap GameState.init).1
    "Error in level1.tmx: invalid tiles count" rfl⟩

end FTG
